import Mathlib

/-!
# Verification of the taal-client repository layer

This file gives a shallow embedding of `repository/repository.go` of the
taal-client project: the data model (API keys, transactions), the timestamp
formats used by the store, and the nine repository operations.  SQL statements
are embedded by translating their relational semantics over an explicit
database state (lists of rows); Go `time.Time` values are embedded as an
instant in milliseconds since the Unix epoch together with a zone offset in
minutes; Go's `Format`/`Parse` for the three fixed layouts appearing in the
source are embedded as concrete rendering and parsing functions on a record of
civil-time fields.

Types of the `server` package (Key, Transaction, Granularity, TransactionInfo)
are not part of the given sources; they are modelled from the specification's
data-model section.  Likewise the read-back representation which the embedded
database engine produces for stored timestamp columns is modelled from the
specification.  Everything else is translated from `repository/repository.go`.
-/

namespace TaalClient

/-! ## Civil time fields and rendering

Go layout constants from the source:

  const ISO8601 = "2006-01-02T15:04:05.999Z"
  const ISO8601DBOutput = "2006-01-02 15:04:05.999Z"
  const ISO8601Sqlite = "2006-01-02 15:04:05.999+00:00"

In all three layouts the trailing `Z` (resp. `+00:00`) is literal text, and
`.999` renders milliseconds with trailing zeros (and, when zero, the dot
itself) removed.
-/

/-- A civil date-time: the fields a Go `time.Time` renders through a layout
string with year, month, day, hour, minute, second and millisecond
components. -/
structure Fields where
  year : Nat
  month : Nat
  day : Nat
  hour : Nat
  minute : Nat
  second : Nat
  millis : Nat
deriving DecidableEq, Repr

/-- Two decimal digits with a leading zero, as Go layout component `01`/`02`/
`15`/`04`/`05` renders a value below 100. -/
def pad2c (n : Nat) : List Char :=
  [Nat.digitChar (n / 10 % 10), Nat.digitChar (n % 10)]

/-- Four decimal digits with leading zeros, as Go layout component `2006`
renders a year below 10000. -/
def pad4c (n : Nat) : List Char :=
  [Nat.digitChar (n / 1000 % 10), Nat.digitChar (n / 100 % 10),
   Nat.digitChar (n / 10 % 10), Nat.digitChar (n % 10)]

/-- The fractional-second component rendered by Go layout component `.999`:
milliseconds with trailing zeros removed, and nothing at all (not even the
dot) when the millisecond value is zero. -/
def fracC (ms : Nat) : List Char :=
  if ms % 1000 = 0 then []
  else if ms % 100 = 0 then ['.', Nat.digitChar (ms / 100 % 10)]
  else if ms % 10 = 0 then
    ['.', Nat.digitChar (ms / 100 % 10), Nat.digitChar (ms / 10 % 10)]
  else
    ['.', Nat.digitChar (ms / 100 % 10), Nat.digitChar (ms / 10 % 10),
     Nat.digitChar (ms % 10)]

/-- The characters produced by formatting `f` through a layout of the shape
`2006-01-02<sep>15:04:05.999<zone>`, where `sep` is `'T'` or `' '` and `zone`
is the literal zone text (`"Z"` or `"+00:00"`). -/
def renderChars (sep : Char) (zone : List Char) (f : Fields) : List Char :=
  pad4c f.year ++ '-' :: pad2c f.month ++ '-' :: pad2c f.day ++
    sep :: pad2c f.hour ++ ':' :: pad2c f.minute ++ ':' :: pad2c f.second ++
    fracC f.millis ++ zone

/-- Go `Format` with layout `ISO8601 = "2006-01-02T15:04:05.999Z"`. -/
def formatISO8601 (f : Fields) : String :=
  ⟨renderChars 'T' ['Z'] f⟩

/-- Go `Format` with layout `ISO8601DBOutput = "2006-01-02 15:04:05.999Z"`. -/
def formatDBOutput (f : Fields) : String :=
  ⟨renderChars ' ' ['Z'] f⟩

/-- The shape of layout `ISO8601Sqlite = "2006-01-02 15:04:05.999+00:00"`:
space separator and a literal `+00:00` zone. -/
def formatSqlite (f : Fields) : String :=
  ⟨renderChars ' ' ['+', '0', '0', ':', '0', '0'] f⟩

/-- Gregorian civil date from a count of days since 1970-01-01 (the standard
era-based conversion used by civil-time libraries, restricted to days at or
after the epoch). -/
def civilFromDays (z : Nat) : Nat × Nat × Nat :=
  let zs := z + 719468
  let era := zs / 146097
  let doe := zs % 146097
  let yoe := (doe - doe / 1460 + doe / 36524 - doe / 146096) / 365
  let y := yoe + era * 400
  let doy := doe - (365 * yoe + yoe / 4 - yoe / 100)
  let mp := (5 * doy + 2) / 153
  let d := doy - (153 * mp + 2) / 5 + 1
  let m := if mp < 10 then mp + 3 else mp - 9
  (if m ≤ 2 then y + 1 else y, m, d)

/-- The civil fields of an instant given as milliseconds since the Unix epoch
(UTC).  The clock fields are the instant's position inside its day. -/
def fieldsOfMillis (n : Nat) : Fields :=
  let ymd := civilFromDays (n / 86400000)
  { year := ymd.1
    month := ymd.2.1
    day := ymd.2.2
    hour := n / 3600000 % 24
    minute := n / 60000 % 60
    second := n / 1000 % 60
    millis := n % 1000 }

/-! ## Parsing

Go `time.Parse` for the layouts occurring in the source.  The layouts are
fixed-width except for the optional fractional second, so each parser
destructures the character list positionally.  Values are range-checked as
`time.Parse` does (month 1–12, hour ≤ 23, minute/second ≤ 59); the day is
checked against 31 rather than the per-month length, a simplification that no
stored value and no claim exercises. -/

/-- Decimal digit test. -/
def isDigitChar (c : Char) : Bool := 48 ≤ c.toNat && c.toNat ≤ 57

/-- Value of a decimal digit character. -/
def dval (c : Char) : Nat := c.toNat - 48

/-- Value of a two-digit component. -/
def val2 (a b : Char) : Nat := 10 * dval a + dval b

/-- Value of a four-digit component. -/
def val4 (a b c d : Char) : Nat :=
  1000 * dval a + 100 * dval b + 10 * dval c + dval d

/-- Milliseconds denoted by a fractional-digit run (the first three digits,
right-padded with zeros; Go truncates deeper digits below the millisecond). -/
def msOfFrac : List Char → Nat
  | [] => 0
  | [a] => 100 * dval a
  | [a, b] => 100 * dval a + 10 * dval b
  | a :: b :: c :: _ => 100 * dval a + 10 * dval b + dval c

/-- Parse the fixed positional part `2006-01-02<sep>15:04:05` of a layout,
with the separator returned as found; yields the fields (milliseconds 0) and
the remaining input. -/
def parseCoreAny : List Char → Option (Char × Fields × List Char)
  | y1 :: y2 :: y3 :: y4 :: '-' :: mo1 :: mo2 :: '-' :: d1 :: d2 :: c ::
      h1 :: h2 :: ':' :: mi1 :: mi2 :: ':' :: s1 :: s2 :: rest =>
    if (isDigitChar y1 && isDigitChar y2 && isDigitChar y3 && isDigitChar y4 &&
        isDigitChar mo1 && isDigitChar mo2 && isDigitChar d1 && isDigitChar d2 &&
        isDigitChar h1 && isDigitChar h2 && isDigitChar mi1 && isDigitChar mi2 &&
        isDigitChar s1 && isDigitChar s2) = true ∧
        1 ≤ val2 mo1 mo2 ∧ val2 mo1 mo2 ≤ 12 ∧
        1 ≤ val2 d1 d2 ∧ val2 d1 d2 ≤ 31 ∧
        val2 h1 h2 ≤ 23 ∧ val2 mi1 mi2 ≤ 59 ∧ val2 s1 s2 ≤ 59 then
      some (c,
        { year := val4 y1 y2 y3 y4, month := val2 mo1 mo2, day := val2 d1 d2,
          hour := val2 h1 h2, minute := val2 mi1 mi2, second := val2 s1 s2,
          millis := 0 }, rest)
    else none
  | _ => none

/-- As `parseCoreAny`, but requiring the given separator. -/
def parseCore (sep : Char) (l : List Char) : Option (Fields × List Char) :=
  match parseCoreAny l with
  | some (c, f, rest) => if c = sep then some (f, rest) else none
  | none => none

/-- Parse the optional fractional second admitted by layout component `.999`:
either absent, or a dot followed by one to nine digits. -/
def parseFrac (l : List Char) : Option (Nat × List Char) :=  match l with
  | '.' :: rest =>
    let ds := rest.takeWhile isDigitChar
    if 1 ≤ ds.length ∧ ds.length ≤ 9 then some (msOfFrac ds, rest.drop ds.length)
    else none
  | l => some (0, l)

/-- Go `time.Parse(ISO8601Sqlite, s)`: layout
`"2006-01-02 15:04:05.999+00:00"` — space separator, optional fraction, and a
literal `+00:00` tail (`+` begins no layout token in Go, so the tail is plain
text). -/
def parseISO8601Sqlite (s : String) : Option Fields :=
  match parseCore ' ' s.data with
  | some (f, rest) =>
    match parseFrac rest with
    | some (ms, r2) =>
      if r2 = ['+', '0', '0', ':', '0', '0'] then some { f with millis := ms }
      else none
    | none => none
  | none => none

/-- Go `time.Parse(ISO8601, s)`: layout `"2006-01-02T15:04:05.999Z"` — `T`
separator, optional fraction, literal `Z` tail. -/
def parseISO8601 (s : String) : Option Fields :=
  match parseCore 'T' s.data with
  | some (f, rest) =>
    match parseFrac rest with
    | some (ms, r2) =>
      if r2 = ['Z'] then some { f with millis := ms } else none
    | none => none
  | none => none

/-- Go `time.Parse("2006-01-02T15:04:05", s)`: full seconds, no fraction, no
zone (the layout used to re-parse buckets of granularity none). -/
def parseLayoutSeconds (s : String) : Option Fields :=
  match parseCore 'T' s.data with
  | some (f, []) => some f
  | _ => none

/-- Go `time.Parse("2006-01-02T15:04", s)`: up to the minute (granularity
minute).  Absent components parse as zero. -/
def parseLayoutMinute (s : String) : Option Fields :=
  match s.data with
  | [y1, y2, y3, y4, '-', mo1, mo2, '-', d1, d2, 'T', h1, h2, ':', mi1, mi2] =>
    if (isDigitChar y1 && isDigitChar y2 && isDigitChar y3 && isDigitChar y4 &&
        isDigitChar mo1 && isDigitChar mo2 && isDigitChar d1 && isDigitChar d2 &&
        isDigitChar h1 && isDigitChar h2 && isDigitChar mi1 && isDigitChar mi2) = true ∧
        1 ≤ val2 mo1 mo2 ∧ val2 mo1 mo2 ≤ 12 ∧
        1 ≤ val2 d1 d2 ∧ val2 d1 d2 ≤ 31 ∧
        val2 h1 h2 ≤ 23 ∧ val2 mi1 mi2 ≤ 59 then
      some { year := val4 y1 y2 y3 y4, month := val2 mo1 mo2, day := val2 d1 d2,
             hour := val2 h1 h2, minute := val2 mi1 mi2, second := 0, millis := 0 }
    else none
  | _ => none

/-- Go `time.Parse("2006-01-02T15", s)`: up to the hour (granularity hour). -/
def parseLayoutHour (s : String) : Option Fields :=
  match s.data with
  | [y1, y2, y3, y4, '-', mo1, mo2, '-', d1, d2, 'T', h1, h2] =>
    if (isDigitChar y1 && isDigitChar y2 && isDigitChar y3 && isDigitChar y4 &&
        isDigitChar mo1 && isDigitChar mo2 && isDigitChar d1 && isDigitChar d2 &&
        isDigitChar h1 && isDigitChar h2) = true ∧
        1 ≤ val2 mo1 mo2 ∧ val2 mo1 mo2 ≤ 12 ∧
        1 ≤ val2 d1 d2 ∧ val2 d1 d2 ≤ 31 ∧
        val2 h1 h2 ≤ 23 then
      some { year := val4 y1 y2 y3 y4, month := val2 mo1 mo2, day := val2 d1 d2,
             hour := val2 h1 h2, minute := 0, second := 0, millis := 0 }
    else none
  | _ => none

/-- Go `time.Parse("2006-01-02", s)`: date only (granularity day, the
fallback). -/
def parseLayoutDay (s : String) : Option Fields :=
  match s.data with
  | [y1, y2, y3, y4, '-', mo1, mo2, '-', d1, d2] =>
    if (isDigitChar y1 && isDigitChar y2 && isDigitChar y3 && isDigitChar y4 &&
        isDigitChar mo1 && isDigitChar mo2 && isDigitChar d1 && isDigitChar d2) = true ∧
        1 ≤ val2 mo1 mo2 ∧ val2 mo1 mo2 ≤ 12 ∧
        1 ≤ val2 d1 d2 ∧ val2 d1 d2 ≤ 31 then
      some { year := val4 y1 y2 y3 y4, month := val2 mo1 mo2, day := val2 d1 d2,
             hour := 0, minute := 0, second := 0, millis := 0 }
    else none
  | _ => none

/-! ## Go `time.Time`

A `time.Time` is embedded as a UTC instant in milliseconds since the Unix
epoch together with the zone offset, in minutes, of the time's location.
`Format` renders the wall-clock (instant plus offset); `UTC()` replaces the
location by UTC; `Add` shifts the instant.  The embedding covers instants at
or after the epoch (all data handled by the repository is far later). -/
structure GoTime where
  utcMillis : Int
  offsetMin : Int
deriving DecidableEq, Repr

namespace GoTime

/-- Milliseconds of the wall clock shown at this time's location. -/
def wallMillis (t : GoTime) : Int := t.utcMillis + t.offsetMin * 60000

/-- Go `t.UTC()`: same instant, UTC location. -/
def utc (t : GoTime) : GoTime := { utcMillis := t.utcMillis, offsetMin := 0 }

/-- Go `t.Add(d)` for a duration of `d` milliseconds. -/
def addMillis (t : GoTime) (d : Int) : GoTime :=
  { t with utcMillis := t.utcMillis + d }

/-- Go `t.Format(ISO8601)`: the wall clock of `t`, rendered through the
canonical write layout (the layout's `Z` is literal text, so the rendering
carries no actual zone information). -/
def format (t : GoTime) : String :=
  formatISO8601 (fieldsOfMillis t.wallMillis.toNat)

end GoTime

/-! ## Entities of the `server` package -/

/-- Modelled from the spec: `server.Key` (the `server` package is not among
the given sources) — apiKey (unique id), opaque private/public key strings, an
address, createdAt, and a nullable revokedAt (null = active).  Timestamps
travel as strings between the store and this layer, as the read paths of the
source scan and re-assign `CreatedAt` as a string. -/
structure Key where
  apiKey : String
  privateKey : String
  publicKey : String
  address : String
  createdAt : String
  revokedAt : Option String
deriving DecidableEq, Repr

/-- Modelled from the spec: `server.Transaction` — caller-supplied unique id,
a reference to a key, payload size, nullable filename/secret, an isHash flag
(stored as 0/1) and createdAt. -/
structure Transaction where
  id : String
  apiKey : String
  dataBytes : Int
  filename : String
  secret : String
  isHash : Bool
  createdAt : String
deriving DecidableEq, Repr

/-- Modelled from the spec: `server.KeyUsage` — a key's fields plus the summed
dataBytes of its transactions, as returned by `GetAllKeysUsage`. -/
structure KeyUsage where
  apiKey : String
  publicKey : String
  privateKey : String
  address : String
  createdAt : String
  revokedAt : Option String
  dataBytes : Int
deriving DecidableEq, Repr

/-- Modelled from the spec: `server.Granularity` — the time-bucket width used
by `GetTransactionInfo`: none, minute, hour or day. -/
inductive Granularity where
  | none
  | minute
  | hour
  | day
deriving DecidableEq, Repr

/-- Modelled from the spec: `server.TransactionInfo` — one aggregation bucket:
its (re-parsed) timestamp, the number of transactions in it and their summed
dataBytes. -/
structure TransactionInfo where
  timestamp : Fields
  count : Nat
  dataBytes : Int
deriving DecidableEq, Repr

/-! ## Database state -/

/-- A stored row of the `transactions` table: the `is_hash` column holds the
0/1 integer written by `bool2integer`. -/
structure TxRow where
  id : String
  apiKey : String
  dataBytes : Int
  filename : String
  secret : String
  isHash : Nat
  createdAt : String
deriving DecidableEq, Repr

/-- The persistent state: the `keys` and `transactions` tables.  A stored key
row has the same shape as `server.Key`. -/
structure DB where
  keys : List Key
  txs : List TxRow
deriving DecidableEq, Repr

/-- The error taxonomy visible through the repository: the distinguished
no-rows signal (`sql.ErrNoRows`), an engine constraint violation (uniqueness),
and a timestamp-parse failure (the error `time.Parse` returns inside
`GetTransactionInfo`). -/
inductive DBErr where
  | noRows
  | constraintViolation
  | timeParseError
deriving DecidableEq, Repr

/-- `bool2integer` from the source: the boolean-to-integer storage mapping. -/
def bool2integer (b : Bool) : Nat := if b then 1 else 0

/-- The inverse conversion the SQL driver applies when scanning the stored
0/1 integer back into the `IsHash` boolean field. -/
def integer2bool (n : Nat) : Bool := n != 0

/-- Modelled from the spec: the embedded engine's read-back representation of
a stored timestamp column (schema and driver are not among the given
sources).  The spec: the read-back "differs subtly (space instead of 'T',
explicit '+00:00' offset instead of 'Z')" from the canonical write format.  A
stored canonical timestamp is handed back re-rendered in that form; any other
stored text is handed back unchanged.  SQL string expressions such as
`SUBSTR(created_at, …)` are computed on the stored text itself. -/
def engineReadBack (s : String) : String :=
  match parseISO8601 s with
  | some f => formatSqlite f
  | Option.none => s

/-- The timestamp-normalization step each bulk read loop of the source
applies to a scanned `CreatedAt`: parse with `ISO8601Sqlite`; on success
re-render with `ISO8601DBOutput`, otherwise keep the value unchanged. -/
def normalizeCreatedAt (s : String) : String :=
  match parseISO8601Sqlite s with
  | some f => formatDBOutput f
  | Option.none => s

/-- SQLite/Postgres `SUBSTR(s, 0, pos)`: character positions are 1-based and
position 0 is an empty slot before the first character, so the result is the
first `pos - 1` characters of `s`. -/
def sqliteSubstr (pos : Nat) (s : String) : String :=
  ⟨s.data.take (pos - 1)⟩

/-- A scanned key row: the driver hands timestamp columns back in the
engine's read-back representation. -/
def readKey (r : Key) : Key :=
  { r with createdAt := engineReadBack r.createdAt,
           revokedAt := r.revokedAt.map engineReadBack }

/-- A scanned transaction row. -/
def readTransaction (r : TxRow) : Transaction :=
  { id := r.id, apiKey := r.apiKey, dataBytes := r.dataBytes,
    filename := r.filename, secret := r.secret,
    isHash := integer2bool r.isHash,
    createdAt := engineReadBack r.createdAt }

/-- Lexicographic (bytewise, i.e. SQL BINARY collation — all stored
timestamps are ASCII) strict comparison of character lists. -/
def charListLt : List Char → List Char → Bool
  | _, [] => false
  | [], _ :: _ => true
  | a :: as, b :: bs =>
    decide (a.toNat < b.toNat) || (a.toNat == b.toNat && charListLt as bs)

/-- SQL string `<` under BINARY collation. -/
def strLt (a b : String) : Bool := charListLt a.data b.data

/-- SQL string `<=` under BINARY collation. -/
def strLe (a b : String) : Bool := !strLt b a

/-- SQL `ORDER BY key` ascending over string keys, as a stable sort. -/
def orderAscBy (key : α → String) (l : List α) : List α :=
  l.insertionSort (fun a b => strLe (key a) (key b) = true)

/-- SQL `ORDER BY key DESC` over string keys, as a stable sort. -/
def orderDescBy (key : α → String) (l : List α) : List α :=
  l.insertionSort (fun a b => strLe (key b) (key a) = true)

instance {ε α : Type} [DecidableEq ε] [DecidableEq α] : DecidableEq (Except ε α) :=
  fun x y =>
    match x, y with
    | .ok a, .ok b =>
      if h : a = b then isTrue (by rw [h]) else
        isFalse (by intro hc; injection hc; contradiction)
    | .error e, .error e' =>
      if h : e = e' then isTrue (by rw [h]) else
        isFalse (by intro hc; injection hc; contradiction)
    | .ok _, .error _ => isFalse (by intro hc; injection hc)
    | .error _, .ok _ => isFalse (by intro hc; injection hc)

/-- The early-return loop of `GetTransactionInfo`: apply `f` to each element,
propagating the first error. -/
def mapExcept (f : α → Except DBErr β) : List α → Except DBErr (List β)
  | [] => .ok []
  | a :: l =>
    match f a with
    | .error e => .error e
    | .ok b =>
      match mapExcept f l with
      | .error e => .error e
      | .ok bs => .ok (b :: bs)

/-! ## The repository operations -/

/-- `InsertKey`: assigns `createdAt = now().UTC().Format(ISO8601)` and
persists all key fields; a duplicate apiKey is a constraint violation
surfaced from the engine. -/
def InsertKey (db : DB) (now : GoTime) (k : Key) : Except DBErr DB :=
  if db.keys.any (fun r => r.apiKey == k.apiKey) then .error .constraintViolation
  else .ok { db with keys := db.keys ++
    [{ apiKey := k.apiKey, privateKey := k.privateKey, publicKey := k.publicKey,
       address := k.address, createdAt := (GoTime.utc now).format,
       revokedAt := Option.none }] }

/-- `GetKey`: `SELECT * FROM keys WHERE api_key = $1 LIMIT 1`, the
distinguished no-rows error when absent.  No timestamp normalization happens
on this path. -/
def GetKey (db : DB) (apiKey : String) : Except DBErr Key :=
  match db.keys.find? (fun r => r.apiKey == apiKey) with
  | some r => .ok (readKey r)
  | Option.none => .error .noRows

/-- A key row as the bulk read path returns it: scanned (engine read-back)
and `CreatedAt`-normalized. -/
def listedKey (r : Key) : Key :=
  let k := readKey r
  { k with createdAt := normalizeCreatedAt k.createdAt }

/-- `GetAllKeys`: active keys ordered by stored `created_at` ascending, each
scanned row's `CreatedAt` passed through the normalization step. -/
def GetAllKeys (db : DB) : List Key :=
  (orderAscBy (fun r : Key => r.createdAt)
      (db.keys.filter (fun r => r.revokedAt == Option.none))).map listedKey

/-- `GetAllKeysUsage`: active keys left-joined with their transactions,
grouped by api_key with `SUM(COALESCE(t.data_bytes, 0))`, ordered by stored
`created_at` ascending, then `CreatedAt`-normalized.  (As `api_key` is the
primary key of `keys`, each row is its own group.) -/
def keyUsageRow (db : DB) (r : Key) : KeyUsage :=
  { apiKey := r.apiKey, publicKey := r.publicKey, privateKey := r.privateKey,
    address := r.address,
    createdAt := normalizeCreatedAt (engineReadBack r.createdAt),
    revokedAt := r.revokedAt.map engineReadBack,
    dataBytes := ((db.txs.filter (fun t => t.apiKey == r.apiKey)).map
      (fun t => t.dataBytes)).sum }

def GetAllKeysUsage (db : DB) : List KeyUsage :=
  (orderAscBy (fun r : Key => r.createdAt)
      (db.keys.filter (fun r => r.revokedAt == Option.none))).map
    (keyUsageRow db)

/-- `InsertTransaction`: assigns `createdAt = now().UTC().Format(ISO8601)`,
maps the boolean through `bool2integer`, persists all fields; a duplicate id
is a constraint violation. -/
def InsertTransaction (db : DB) (now : GoTime) (tx : Transaction) :
    Except DBErr DB :=
  if db.txs.any (fun r => r.id == tx.id) then .error .constraintViolation
  else .ok { db with txs := db.txs ++
    [{ id := tx.id, apiKey := tx.apiKey, dataBytes := tx.dataBytes,
       filename := tx.filename, secret := tx.secret,
       isHash := bool2integer tx.isHash,
       createdAt := (GoTime.utc now).format }] }

/-- `GetTransaction`: `SELECT * FROM transactions WHERE id = $1`; the first
row if any, else the distinguished no-rows error.  No timestamp normalization
happens on this path. -/
def GetTransaction (db : DB) (txid : String) : Except DBErr Transaction :=
  match db.txs.find? (fun r => r.id == txid) with
  | some r => .ok (readTransaction r)
  | Option.none => .error .noRows

/-- A transaction row as the bulk read path returns it: scanned (engine
read-back) and `CreatedAt`-normalized. -/
def listedTransaction (r : TxRow) : Transaction :=
  let t := readTransaction r
  { t with createdAt := normalizeCreatedAt t.createdAt }

/-- The lower bound `now.Add(-1 * hoursBack * time.Hour).UTC().Format(ISO8601)`
the non-`all` query compares stored timestamps against. -/
def hoursBackCutoff (now : GoTime) (hoursBack : Nat) : String :=
  (GoTime.utc (now.addMillis (-(hoursBack * 3600000 : Int)))).format

/-- `GetAllTransactions`: all transactions (or, when `all` is false, those
with stored `created_at >=` the rendering of `now − hoursBack` hours) ordered
by stored `created_at` descending, each scanned row `CreatedAt`-normalized. -/
def GetAllTransactions (db : DB) (now : GoTime) (all : Bool) (hoursBack : Nat) :
    List Transaction :=
  let rows :=
    if all then db.txs
    else db.txs.filter (fun r => strLe (hoursBackCutoff now hoursBack) r.createdAt)
  (orderDescBy (fun r : TxRow => r.createdAt) rows).map listedTransaction

/-- The truncation layout a position's bucket timestamps are re-parsed
with. -/
inductive TimeLayout where
  | seconds
  | minute
  | hour
  | day
deriving DecidableEq, Repr

/-- `granularitySecondsToPositionAndFormat` from the source: the `SUBSTR`
position argument and re-parse layout per granularity; everything other than
none/minute/hour falls through to the day case. -/
def granularitySecondsToPositionAndFormat (granularitySeconds : Granularity) :
    Nat × TimeLayout :=
  match granularitySeconds with
  | .none => (20, .seconds)
  | .minute => (17, .minute)
  | .hour => (14, .hour)
  | _ => (11, .day)

/-- Dispatch of `time.Parse(format, …)` over the four truncation layouts. -/
def parseLayout : TimeLayout → String → Option Fields
  | .seconds => parseLayoutSeconds
  | .minute => parseLayoutMinute
  | .hour => parseLayoutHour
  | .day => parseLayoutDay

/-- The rows of the aggregation query of `GetTransactionInfo`: transactions
with stored `created_at` strictly between the rendered bounds. -/
def txsInRange (db : DB) (fromT toT : GoTime) : List TxRow :=
  db.txs.filter (fun r =>
    strLt fromT.format r.createdAt && strLt r.createdAt toT.format)

/-- The bucket timestamps of the aggregation query: the distinct
`SUBSTR(created_at, 0, pos)` values of the rows in range, ordered
descending. -/
def bucketStamps (db : DB) (fromT toT : GoTime) (pos : Nat) : List String :=
  orderDescBy (fun s => s)
    (((txsInRange db fromT toT).map (fun r => sqliteSubstr pos r.createdAt)).dedup)

/-- `GetTransactionInfo`: buckets the rows in range by truncated timestamp,
with per-bucket count and summed data_bytes, buckets ordered descending;
re-parses each bucket timestamp, a parse failure failing the whole call. -/
def GetTransactionInfo (db : DB) (fromT toT : GoTime) (granularity : Granularity) :
    Except DBErr (List TransactionInfo) :=
  let pf := granularitySecondsToPositionAndFormat granularity
  let rows := txsInRange db fromT toT
  mapExcept
    (fun st =>
      match parseLayout pf.2 st with
      | some f => .ok
          { timestamp := f,
            count := (rows.filter (fun r => sqliteSubstr pf.1 r.createdAt == st)).length,
            dataBytes := ((rows.filter (fun r => sqliteSubstr pf.1 r.createdAt == st)).map
              (fun r => r.dataBytes)).sum }
      | Option.none => .error .timeParseError)
    (bucketStamps db fromT toT pf.1)

/-- `DeactivateKey`: `UPDATE keys SET revoked_at = $1 WHERE api_key = $2`
with `$1 = now().Format(ISO8601)` — the only write path without a `.UTC()`
conversion.  The update itself never fails, whether or not a row matches or
is already revoked. -/
def DeactivateKey (db : DB) (now : GoTime) (apikey : String) : Except DBErr DB :=
  .ok { db with keys := db.keys.map (fun r =>
    if r.apiKey == apikey then { r with revokedAt := some now.format } else r) }

/-! ## Order properties of the BINARY-collation comparison -/

theorem charListLt_cons {a b : Char} {as bs : List Char} :
    charListLt (a :: as) (b :: bs) = true ↔
      a.toNat < b.toNat ∨ (a.toNat = b.toNat ∧ charListLt as bs = true) := by
  simp [charListLt]

theorem charListLt_nil_right (l : List Char) : charListLt l [] = false := by
  cases l <;> rfl

theorem charListLt_irrefl (l : List Char) : charListLt l l = false := by
  induction l with
  | nil => rfl
  | cons a as ih => simp [charListLt, ih]

theorem char_toNat_inj {a b : Char} (h : a.toNat = b.toNat) : a = b := by
  apply Char.ext
  apply UInt32.toNat.inj
  exact h

theorem charListLt_trans {a : List Char} : ∀ {b c : List Char},
    charListLt a b = true → charListLt b c = true → charListLt a c = true := by
  induction a with
  | nil =>
    intro b c h1 h2
    cases c with
    | nil => rw [charListLt_nil_right] at h2; cases h2
    | cons z zs => rfl
  | cons x xs ih =>
    intro b c h1 h2
    cases b with
    | nil => rw [charListLt_nil_right] at h1; cases h1
    | cons y ys =>
      cases c with
      | nil => rw [charListLt_nil_right] at h2; cases h2
      | cons z zs =>
        rw [charListLt_cons] at h1 h2 ⊢
        rcases h1 with h1 | ⟨e1, h1⟩ <;> rcases h2 with h2 | ⟨e2, h2⟩
        · exact Or.inl (by omega)
        · exact Or.inl (by omega)
        · exact Or.inl (by omega)
        · exact Or.inr ⟨by omega, ih h1 h2⟩

theorem charListLt_trichotomy (a : List Char) : ∀ (b : List Char),
    charListLt a b = true ∨ a = b ∨ charListLt b a = true := by
  induction a with
  | nil =>
    intro b
    cases b with
    | nil => exact Or.inr (Or.inl rfl)
    | cons z zs => exact Or.inl rfl
  | cons x xs ih =>
    intro b
    cases b with
    | nil => exact Or.inr (Or.inr rfl)
    | cons y ys =>
      rcases Nat.lt_trichotomy x.toNat y.toNat with h | h | h
      · exact Or.inl (charListLt_cons.mpr (Or.inl h))
      · have hxy : x = y := char_toNat_inj h
        rcases ih ys with h' | h' | h'
        · exact Or.inl (charListLt_cons.mpr (Or.inr ⟨h, h'⟩))
        · exact Or.inr (Or.inl (by rw [hxy, h']))
        · exact Or.inr (Or.inr (charListLt_cons.mpr (Or.inr ⟨h.symm, h'⟩)))
      · exact Or.inr (Or.inr (charListLt_cons.mpr (Or.inl h)))

theorem strLe_total (a b : String) : strLe a b = true ∨ strLe b a = true := by
  unfold strLe strLt
  rcases charListLt_trichotomy b.data a.data with h | h | h
  · right
    by_contra hc
    simp only [Bool.not_eq_true, Bool.not_eq_false'] at hc
    have := charListLt_trans h hc
    rw [charListLt_irrefl] at this
    cases this
  · left; simp [h, charListLt_irrefl]
  · left; simp only [Bool.not_eq_true', Bool.not_eq_false]
    by_contra hc
    simp only [Bool.not_eq_false] at hc
    have := charListLt_trans h hc
    rw [charListLt_irrefl] at this
    cases this

theorem strLe_trans {a b c : String} (h1 : strLe a b = true)
    (h2 : strLe b c = true) : strLe a c = true := by
  unfold strLe strLt at h1 h2 ⊢
  simp only [Bool.not_eq_true'] at h1 h2 ⊢
  by_contra hc
  simp only [Bool.not_eq_false] at hc
  rcases charListLt_trichotomy b.data c.data with h | h | h
  · rw [charListLt_trans h hc] at h1; cases h1
  · rw [← h] at hc; rw [hc] at h1; cases h1
  · rw [h] at h2; cases h2

/-- SQL ascending order output is sorted. -/
theorem orderAscBy_sorted (key : α → String) (l : List α) :
    (orderAscBy key l).Pairwise (fun a b => strLe (key a) (key b) = true) := by
  haveI : IsTotal α (fun a b => strLe (key a) (key b) = true) :=
    ⟨fun a b => strLe_total _ _⟩
  haveI : IsTrans α (fun a b => strLe (key a) (key b) = true) :=
    ⟨fun _ _ _ h1 h2 => strLe_trans h1 h2⟩
  exact List.sorted_insertionSort _ l

/-- SQL ascending order output is a permutation of the input rows. -/
theorem orderAscBy_perm (key : α → String) (l : List α) :
    List.Perm (orderAscBy key l) l :=
  List.perm_insertionSort _ l

/-- SQL descending order output is sorted downwards. -/
theorem orderDescBy_sorted (key : α → String) (l : List α) :
    (orderDescBy key l).Pairwise (fun a b => strLe (key b) (key a) = true) := by
  haveI : IsTotal α (fun a b => strLe (key b) (key a) = true) :=
    ⟨fun a b => strLe_total (key b) (key a)⟩
  haveI : IsTrans α (fun a b => strLe (key b) (key a) = true) :=
    ⟨fun _ _ _ h1 h2 => strLe_trans h2 h1⟩
  exact List.sorted_insertionSort _ l

/-- SQL descending order output is a permutation of the input rows. -/
theorem orderDescBy_perm (key : α → String) (l : List α) :
    List.Perm (orderDescBy key l) l :=
  List.perm_insertionSort _ l

/-! ## Round-trip lemmas: parsing a rendering recovers the fields -/

theorem dval_digitChar : ∀ n < 10, dval (Nat.digitChar n) = n := by decide

theorem isDigitChar_digitChar : ∀ n < 10, isDigitChar (Nat.digitChar n) = true := by
  decide

theorem digitChar_ne_of_isDigitChar_false {c : Char} (h : isDigitChar c = false) :
    ∀ n < 10, Nat.digitChar n ≠ c := by
  intro n hn he
  rw [← he] at h
  rw [isDigitChar_digitChar n hn] at h
  cases h

/-- Well-formedness of civil fields: the ranges under which rendering is
faithfully invertible (exactly the ranges `time.Parse` accepts in this
embedding). -/
def Fields.wf (f : Fields) : Prop :=
  1 ≤ f.month ∧ f.month ≤ 12 ∧ 1 ≤ f.day ∧ f.day ≤ 31 ∧ f.hour ≤ 23 ∧
    f.minute ≤ 59 ∧ f.second ≤ 59 ∧ f.millis ≤ 999 ∧ f.year ≤ 9999

instance (f : Fields) : Decidable f.wf := by
  unfold Fields.wf
  infer_instance

theorem fieldsOfMillis_year (n : Nat) :
    (fieldsOfMillis n).year = (civilFromDays (n / 86400000)).1 := rfl

theorem fieldsOfMillis_month (n : Nat) :
    (fieldsOfMillis n).month = (civilFromDays (n / 86400000)).2.1 := rfl

theorem fieldsOfMillis_day (n : Nat) :
    (fieldsOfMillis n).day = (civilFromDays (n / 86400000)).2.2 := rfl

theorem fieldsOfMillis_hour (n : Nat) :
    (fieldsOfMillis n).hour = n / 3600000 % 24 := rfl

theorem fieldsOfMillis_minute (n : Nat) :
    (fieldsOfMillis n).minute = n / 60000 % 60 := rfl

theorem fieldsOfMillis_second (n : Nat) :
    (fieldsOfMillis n).second = n / 1000 % 60 := rfl

theorem fieldsOfMillis_millis (n : Nat) :
    (fieldsOfMillis n).millis = n % 1000 := rfl

theorem civilFromDays_month_ge (z : Nat) : 1 ≤ (civilFromDays z).2.1 := by
  unfold civilFromDays
  dsimp only
  split <;> omega

theorem civilFromDays_month_le (z : Nat) : (civilFromDays z).2.1 ≤ 12 := by
  unfold civilFromDays
  dsimp only
  split <;> omega

theorem civilFromDays_day_ge (z : Nat) : 1 ≤ (civilFromDays z).2.2 := by
  unfold civilFromDays
  dsimp only
  omega

theorem civilFromDays_day_le (z : Nat) : (civilFromDays z).2.2 ≤ 31 := by
  unfold civilFromDays
  dsimp only
  omega

theorem civilFromDays_year_le {z : Nat} (h : z < 2786860) :
    (civilFromDays z).1 ≤ 9999 := by
  unfold civilFromDays
  dsimp only
  split <;> (try split) <;> omega

theorem fieldsOfMillis_wf {n : Nat} (h : n < 240784704000000) :
    (fieldsOfMillis n).wf := by
  refine ⟨?_, ?_, ?_, ?_, ?_, ?_, ?_, ?_, ?_⟩
  · rw [fieldsOfMillis_month]; exact civilFromDays_month_ge _
  · rw [fieldsOfMillis_month]; exact civilFromDays_month_le _
  · rw [fieldsOfMillis_day]; exact civilFromDays_day_ge _
  · rw [fieldsOfMillis_day]; exact civilFromDays_day_le _
  · rw [fieldsOfMillis_hour]; omega
  · rw [fieldsOfMillis_minute]; omega
  · rw [fieldsOfMillis_second]; omega
  · rw [fieldsOfMillis_millis]; omega
  · rw [fieldsOfMillis_year]; exact civilFromDays_year_le (by omega)

theorem parseCoreAny_renderChars (sep : Char) (zone : List Char) (f : Fields)
    (hw : f.wf) :
    parseCoreAny (renderChars sep zone f) =
      some (sep, { f with millis := 0 }, fracC f.millis ++ zone) := by
  obtain ⟨h1, h2, h3, h4, h5, h6, h7, h8, h9⟩ := hw
  simp only [renderChars, pad4c, pad2c, List.cons_append, List.nil_append,
    List.append_assoc]
  rw [parseCoreAny]
  rw [if_pos]
  · simp only [Option.some.injEq, Prod.mk.injEq]
    refine ⟨trivial, ?_, trivial⟩
    have e1 := dval_digitChar (f.year / 1000 % 10) (by omega)
    have e2 := dval_digitChar (f.year / 100 % 10) (by omega)
    have e3 := dval_digitChar (f.year / 10 % 10) (by omega)
    have e4 := dval_digitChar (f.year % 10) (by omega)
    have e5 := dval_digitChar (f.month / 10 % 10) (by omega)
    have e6 := dval_digitChar (f.month % 10) (by omega)
    have e7 := dval_digitChar (f.day / 10 % 10) (by omega)
    have e8 := dval_digitChar (f.day % 10) (by omega)
    have e9 := dval_digitChar (f.hour / 10 % 10) (by omega)
    have e10 := dval_digitChar (f.hour % 10) (by omega)
    have e11 := dval_digitChar (f.minute / 10 % 10) (by omega)
    have e12 := dval_digitChar (f.minute % 10) (by omega)
    have e13 := dval_digitChar (f.second / 10 % 10) (by omega)
    have e14 := dval_digitChar (f.second % 10) (by omega)
    cases f
    simp only [val4, val2, e1, e2, e3, e4, e5, e6, e7, e8, e9, e10, e11, e12,
      e13, e14, Fields.mk.injEq] at h1 h2 h3 h4 h5 h6 h7 h8 h9 ⊢
    refine ⟨by omega, by omega, by omega, by omega, by omega, by omega, trivial⟩
  · have d1 := isDigitChar_digitChar (f.year / 1000 % 10) (by omega)
    have d2 := isDigitChar_digitChar (f.year / 100 % 10) (by omega)
    have d3 := isDigitChar_digitChar (f.year / 10 % 10) (by omega)
    have d4 := isDigitChar_digitChar (f.year % 10) (by omega)
    have d5 := isDigitChar_digitChar (f.month / 10 % 10) (by omega)
    have d6 := isDigitChar_digitChar (f.month % 10) (by omega)
    have d7 := isDigitChar_digitChar (f.day / 10 % 10) (by omega)
    have d8 := isDigitChar_digitChar (f.day % 10) (by omega)
    have d9 := isDigitChar_digitChar (f.hour / 10 % 10) (by omega)
    have d10 := isDigitChar_digitChar (f.hour % 10) (by omega)
    have d11 := isDigitChar_digitChar (f.minute / 10 % 10) (by omega)
    have d12 := isDigitChar_digitChar (f.minute % 10) (by omega)
    have d13 := isDigitChar_digitChar (f.second / 10 % 10) (by omega)
    have d14 := isDigitChar_digitChar (f.second % 10) (by omega)
    have e5 := dval_digitChar (f.month / 10 % 10) (by omega)
    have e6 := dval_digitChar (f.month % 10) (by omega)
    have e7 := dval_digitChar (f.day / 10 % 10) (by omega)
    have e8 := dval_digitChar (f.day % 10) (by omega)
    have e9 := dval_digitChar (f.hour / 10 % 10) (by omega)
    have e10 := dval_digitChar (f.hour % 10) (by omega)
    have e11 := dval_digitChar (f.minute / 10 % 10) (by omega)
    have e12 := dval_digitChar (f.minute % 10) (by omega)
    have e13 := dval_digitChar (f.second / 10 % 10) (by omega)
    have e14 := dval_digitChar (f.second % 10) (by omega)
    simp only [d1, d2, d3, d4, d5, d6, d7, d8, d9, d10, d11, d12, d13, d14,
      Bool.and_self, val2, e5, e6, e7, e8, e9, e10, e11, e12, e13, e14]
    refine ⟨trivial, by omega, by omega, by omega, by omega, by omega, by omega,
      by omega⟩

theorem parseFrac_not_dot {c : Char} (hc : c ≠ '.') (r : List Char) :
    parseFrac (c :: r) = some (0, c :: r) := by
  unfold parseFrac
  split
  · rename_i rest heq
    rw [List.cons.injEq] at heq
    exact absurd heq.1 hc
  · rfl

theorem parseFrac_fracC {ms : Nat} (hms : ms ≤ 999) {c : Char}
    (hc1 : isDigitChar c = false) (hc2 : c ≠ '.') (r : List Char) :
    parseFrac (fracC ms ++ c :: r) = some (ms, c :: r) := by
  have hd1 : isDigitChar (Nat.digitChar (ms / 100 % 10)) = true :=
    isDigitChar_digitChar _ (by omega)
  have hd2 : isDigitChar (Nat.digitChar (ms / 10 % 10)) = true :=
    isDigitChar_digitChar _ (by omega)
  have hd3 : isDigitChar (Nat.digitChar (ms % 10)) = true :=
    isDigitChar_digitChar _ (by omega)
  have he1 : dval (Nat.digitChar (ms / 100 % 10)) = ms / 100 % 10 :=
    dval_digitChar _ (by omega)
  have he2 : dval (Nat.digitChar (ms / 10 % 10)) = ms / 10 % 10 :=
    dval_digitChar _ (by omega)
  have he3 : dval (Nat.digitChar (ms % 10)) = ms % 10 :=
    dval_digitChar _ (by omega)
  unfold fracC
  by_cases h0 : ms % 1000 = 0
  · rw [if_pos h0]
    simp only [List.nil_append]
    rw [parseFrac_not_dot hc2]
    have hz : ms = 0 := by omega
    rw [hz]
  · rw [if_neg h0]
    by_cases h1 : ms % 100 = 0
    · rw [if_pos h1]
      simp only [List.cons_append, List.nil_append]
      unfold parseFrac
      simp only [List.takeWhile_cons, hd1, hc1, Bool.false_eq_true, if_true,
        if_false, List.takeWhile_nil, List.length_cons, List.length_nil]
      rw [if_pos (by omega)]
      simp only [msOfFrac, he1, List.drop_succ_cons, List.drop_zero,
        Option.some.injEq, Prod.mk.injEq]
      exact ⟨by omega, trivial⟩
    · rw [if_neg h1]
      by_cases h2 : ms % 10 = 0
      · rw [if_pos h2]
        simp only [List.cons_append, List.nil_append]
        unfold parseFrac
        simp only [List.takeWhile_cons, hd1, hd2, hc1, Bool.false_eq_true,
          if_true, if_false, List.length_cons, List.length_nil]
        rw [if_pos (by omega)]
        simp only [msOfFrac, he1, he2, List.drop_succ_cons, List.drop_zero,
          Option.some.injEq, Prod.mk.injEq]
        exact ⟨by omega, trivial⟩
      · rw [if_neg h2]
        simp only [List.cons_append, List.nil_append]
        unfold parseFrac
        simp only [List.takeWhile_cons, hd1, hd2, hd3, hc1, Bool.false_eq_true,
          if_true, if_false, List.length_cons, List.length_nil]
        rw [if_pos (by omega)]
        simp only [msOfFrac, he1, he2, he3, List.drop_succ_cons, List.drop_zero,
          Option.some.injEq, Prod.mk.injEq]
        exact ⟨by omega, trivial⟩

theorem parseISO8601_formatISO8601 {f : Fields} (hw : f.wf) :
    parseISO8601 (formatISO8601 f) = some f := by
  unfold parseISO8601 parseCore formatISO8601
  have hdata : (⟨renderChars 'T' ['Z'] f⟩ : String).data = renderChars 'T' ['Z'] f :=
    rfl
  rw [hdata, parseCoreAny_renderChars 'T' ['Z'] f hw]
  dsimp only
  rw [if_pos (show ('T' : Char) = 'T' from rfl)]
  dsimp only
  rw [parseFrac_fracC hw.2.2.2.2.2.2.2.1 (by decide) (by decide) []]
  dsimp only
  rw [if_pos (show (['Z'] : List Char) = ['Z'] from rfl)]

theorem parseISO8601Sqlite_formatSqlite {f : Fields} (hw : f.wf) :
    parseISO8601Sqlite (formatSqlite f) = some f := by
  unfold parseISO8601Sqlite parseCore formatSqlite
  have hdata : (⟨renderChars ' ' ['+', '0', '0', ':', '0', '0'] f⟩ : String).data =
      renderChars ' ' ['+', '0', '0', ':', '0', '0'] f := rfl
  rw [hdata, parseCoreAny_renderChars ' ' ['+', '0', '0', ':', '0', '0'] f hw]
  dsimp only
  rw [if_pos (show (' ' : Char) = ' ' from rfl)]
  dsimp only
  rw [show fracC f.millis ++ ['+', '0', '0', ':', '0', '0'] =
    fracC f.millis ++ '+' :: ['0', '0', ':', '0', '0'] from rfl]
  rw [parseFrac_fracC hw.2.2.2.2.2.2.2.1 (by decide) (by decide)]
  dsimp only
  rw [if_pos (show ('+' :: ['0', '0', ':', '0', '0'] : List Char) =
    ['+', '0', '0', ':', '0', '0'] from rfl)]

/-- The two storage layouts are mutually exclusive: a string that parses
under the embedded engine's read layout (space separator) does not parse
under the canonical layout (`T` separator). -/
theorem parseISO8601_eq_none_of_sqlite {s : String} {f : Fields}
    (h : parseISO8601Sqlite s = some f) : parseISO8601 s = none := by
  unfold parseISO8601Sqlite parseCore at h
  unfold parseISO8601 parseCore
  cases hp : parseCoreAny s.data with
  | none => rfl
  | some trip =>
    obtain ⟨c, f0, rest⟩ := trip
    rw [hp] at h
    by_cases hc : c = ' '
    · subst hc
      simp only [if_neg (by decide : ¬ (' ' = 'T'))]
    · simp only [if_neg hc] at h
      cases h

/-- On a string in the engine's read layout, the engine read-back is the
identity (such a string is not in the canonical layout). -/
theorem engineReadBack_of_sqlite {s : String} {f : Fields}
    (h : parseISO8601Sqlite s = some f) : engineReadBack s = s := by
  unfold engineReadBack
  rw [parseISO8601_eq_none_of_sqlite h]

/-- The engine read-back of a stored canonical rendering is its sqlite-layout
re-rendering. -/
theorem engineReadBack_format {f : Fields} (hw : f.wf) :
    engineReadBack (formatISO8601 f) = formatSqlite f := by
  unfold engineReadBack
  rw [parseISO8601_formatISO8601 hw]

/-- Normalization re-renders a parsed value through `ISO8601DBOutput`. -/
theorem normalizeCreatedAt_of_sqlite {s : String} {f : Fields}
    (h : parseISO8601Sqlite s = some f) :
    normalizeCreatedAt s = formatDBOutput f := by
  unfold normalizeCreatedAt
  rw [h]

/-- Normalization keeps an unparseable value unchanged. -/
theorem normalizeCreatedAt_of_none {s : String}
    (h : parseISO8601Sqlite s = none) : normalizeCreatedAt s = s := by
  unfold normalizeCreatedAt
  rw [h]

/-- Normalization of a sqlite-layout rendering yields the `ISO8601DBOutput`
rendering of the same fields. -/
theorem normalizeCreatedAt_formatSqlite {f : Fields} (hw : f.wf) :
    normalizeCreatedAt (formatSqlite f) = formatDBOutput f :=
  normalizeCreatedAt_of_sqlite (parseISO8601Sqlite_formatSqlite hw)

theorem digitChar_inj : ∀ a < 10, ∀ b < 10,
    Nat.digitChar a = Nat.digitChar b → a = b := by decide

/-! ## The claims -/

/-- C4, counterexample.  The claim says bucketing truncates the canonical
timestamp to "a fixed prefix whose length is 20 for granularity none"; but the
query truncates with `SUBSTR(created_at, 0, 20)`, whose SQLite/Postgres
semantics (start position 0) yields only the first 19 characters — exactly
the width of the re-parse layout `2006-01-02T15:04:05`. -/
theorem c4_counterexample :
    (sqliteSubstr (granularitySecondsToPositionAndFormat Granularity.none).1
        "2021-03-04T12:00:01.000Z").length ≠ 20 ∧
      sqliteSubstr (granularitySecondsToPositionAndFormat Granularity.none).1
        "2021-03-04T12:00:01.000Z" = "2021-03-04T12:00:01" := by
  decide

/-- C4, amended.  `granularitySecondsToPositionAndFormat` yields position 20
and the full-seconds layout for granularity none, 17/minute, 14/hour, and for
every other granularity (the fallback default) 11/day; the truncation used by
the query keeps the first `position − 1` characters (19, 16, 13, 10
respectively) because `SUBSTR` starts at position 0. -/
theorem c4_truncation :
    granularitySecondsToPositionAndFormat Granularity.none = (20, TimeLayout.seconds) ∧
    granularitySecondsToPositionAndFormat Granularity.minute = (17, TimeLayout.minute) ∧
    granularitySecondsToPositionAndFormat Granularity.hour = (14, TimeLayout.hour) ∧
    (∀ g : Granularity, g ≠ Granularity.none → g ≠ Granularity.minute →
      g ≠ Granularity.hour →
      granularitySecondsToPositionAndFormat g = (11, TimeLayout.day)) ∧
    (∀ (g : Granularity) (s : String),
      (sqliteSubstr (granularitySecondsToPositionAndFormat g).1 s).length =
        min ((granularitySecondsToPositionAndFormat g).1 - 1) s.length) := by
  refine ⟨rfl, rfl, rfl, ?_, ?_⟩
  · intro g h1 h2 h3
    cases g with
    | none => exact absurd rfl h1
    | minute => exact absurd rfl h2
    | hour => exact absurd rfl h3
    | day => rfl
  · intro g s
    have : ∀ k : Nat, (sqliteSubstr k s).length = min (k - 1) s.length := by
      intro k
      show (s.data.take (k - 1)).length = min (k - 1) s.data.length
      exact List.length_take _ _
    exact this _

/-- C4, witness: the fallback branch at the concrete granularity day. -/
theorem c4_truncation_witness :
    granularitySecondsToPositionAndFormat Granularity.day = (11, TimeLayout.day) :=
  c4_truncation.2.2.2.1 Granularity.day (by decide) (by decide) (by decide)

/-- C8: `GetTransaction` yields the distinguished no-rows signal exactly when
no stored transaction has the requested id, yields the (first) matching
transaction without error when one exists, and the no-rows signal is distinct
from the other error classes. -/
theorem c8_get_transaction_not_found (db : DB) (txid : String) :
    (GetTransaction db txid = .error DBErr.noRows ↔ ∀ r ∈ db.txs, r.id ≠ txid) ∧
    (∀ r ∈ db.txs, r.id = txid →
      ∃ r0 ∈ db.txs, r0.id = txid ∧
        GetTransaction db txid = .ok (readTransaction r0)) ∧
    DBErr.noRows ≠ DBErr.constraintViolation ∧
    DBErr.noRows ≠ DBErr.timeParseError := by
  refine ⟨?_, ?_, by decide, by decide⟩
  · unfold GetTransaction
    cases hf : db.txs.find? (fun r => r.id == txid) with
    | none =>
      simp only [true_iff]
      rw [List.find?_eq_none] at hf
      intro r hr he
      exact absurd (by simp [he]) (hf r hr)
    | some r0 =>
      constructor
      · intro h
        cases h
      · intro hall
        have hmem := List.mem_of_find?_eq_some hf
        have hpred := List.find?_some hf
        rw [beq_iff_eq] at hpred
        exact absurd hpred (hall r0 hmem)
  · intro r hr he
    unfold GetTransaction
    cases hf : db.txs.find? (fun r => r.id == txid) with
    | none =>
      rw [List.find?_eq_none] at hf
      exact absurd (by simp [he]) (hf r hr)
    | some r0 =>
      have hmem := List.mem_of_find?_eq_some hf
      have hpred := List.find?_some hf
      rw [beq_iff_eq] at hpred
      exact ⟨r0, hmem, hpred, rfl⟩

/-- C8, witness: a database with one transaction, looked up by its own id and
by an unknown id. -/
theorem c8_get_transaction_not_found_witness :
    GetTransaction ⟨[], [⟨"t1", "ak", 100, "", "", 0, "2021-03-04T12:00:01Z"⟩]⟩
        "t1" =
      .ok (readTransaction ⟨"t1", "ak", 100, "", "", 0, "2021-03-04T12:00:01Z"⟩) ∧
    GetTransaction ⟨[], [⟨"t1", "ak", 100, "", "", 0, "2021-03-04T12:00:01Z"⟩]⟩
        "t2" =
      .error DBErr.noRows :=
  ⟨by decide,
    (c8_get_transaction_not_found
        ⟨[], [⟨"t1", "ak", 100, "", "", 0, "2021-03-04T12:00:01Z"⟩]⟩ "t2").1.mpr
      (by decide)⟩

/-- C9, counterexample.  The claim says the second `DeactivateKey` call "sets
the same revokedAt value as the first call"; but each call stores the
rendering of its own clock reading, so with the clock advanced by one second
between the calls the second call overwrites revokedAt with a different
value. -/
theorem c9_counterexample :
    DeactivateKey ⟨[⟨"ak", "p", "q", "a", "2021-03-01T00:00:00Z", Option.none⟩], []⟩
        ⟨1614859201000, 0⟩ "ak" =
      .ok ⟨[⟨"ak", "p", "q", "a", "2021-03-01T00:00:00Z",
        some "2021-03-04T12:00:01Z"⟩], []⟩ ∧
    DeactivateKey ⟨[⟨"ak", "p", "q", "a", "2021-03-01T00:00:00Z",
        some "2021-03-04T12:00:01Z"⟩], []⟩
        ⟨1614859202000, 0⟩ "ak" =
      .ok ⟨[⟨"ak", "p", "q", "a", "2021-03-01T00:00:00Z",
        some "2021-03-04T12:00:02Z"⟩], []⟩ ∧
    ("2021-03-04T12:00:02Z" : String) ≠ "2021-03-04T12:00:01Z" := by
  decide

/-- C9, amended.  Calling `DeactivateKey` twice on the same apiKey is safe:
the second call on the already-revoked key still succeeds with no error; it
stores the rendering of its own clock reading (so when the injected clock is
unchanged between the calls, the second call is a no-op and the stored
revokedAt is the same value the first call set), and the key is left
revoked. -/
theorem c9_deactivate_twice (db : DB) (t t2 : GoTime) (apikey : String) :
    (∀ db1, DeactivateKey db t apikey = .ok db1 →
      DeactivateKey db1 t apikey = .ok db1) ∧
    (∀ db1 db2, DeactivateKey db t apikey = .ok db1 →
      DeactivateKey db1 t2 apikey = .ok db2 →
      ∀ r ∈ db2.keys, r.apiKey = apikey → r.revokedAt = some t2.format) ∧
    (∀ db1 r, DeactivateKey db t apikey = .ok db1 → r ∈ db1.keys →
      r.apiKey = apikey → r.revokedAt = some t.format) := by
  refine ⟨?_, ?_, ?_⟩
  · intro db1 h
    unfold DeactivateKey at h ⊢
    injection h with h
    rw [← h]
    simp only [Except.ok.injEq, List.map_map]
    congr 1
    apply List.map_congr_left
    intro r _
    show (fun r => if r.apiKey == apikey then
        { r with revokedAt := some t.format } else r)
      (if r.apiKey == apikey then { r with revokedAt := some t.format } else r) =
      if r.apiKey == apikey then { r with revokedAt := some t.format } else r
    by_cases hb : r.apiKey == apikey
    · simp only [if_pos hb]
    · simp only [if_neg hb]
  · intro db1 db2 h1 h2 r hr hak
    unfold DeactivateKey at h2
    injection h2 with h2
    rw [← h2] at hr
    simp only [List.mem_map] at hr
    obtain ⟨r0, _, hr0⟩ := hr
    by_cases hb : r0.apiKey == apikey
    · rw [if_pos hb] at hr0
      rw [← hr0]
    · rw [if_neg hb] at hr0
      rw [← hr0] at hak
      rw [hak] at hb
      exact absurd (by simp) hb
  · intro db1 r h1 hr hak
    unfold DeactivateKey at h1
    injection h1 with h1
    rw [← h1] at hr
    simp only [List.mem_map] at hr
    obtain ⟨r0, _, hr0⟩ := hr
    by_cases hb : r0.apiKey == apikey
    · rw [if_pos hb] at hr0
      rw [← hr0]
    · rw [if_neg hb] at hr0
      rw [← hr0] at hak
      rw [hak] at hb
      exact absurd (by simp) hb

/-- C9, witness: both parts at a concrete one-key database and fixed clock. -/
theorem c9_deactivate_twice_witness :
    DeactivateKey ⟨[⟨"ak", "p", "q", "a", "2021-03-01T00:00:00Z",
        some "2021-03-04T12:00:01Z"⟩], []⟩
      ⟨1614859201000, 0⟩ "ak" =
    .ok ⟨[⟨"ak", "p", "q", "a", "2021-03-01T00:00:00Z",
        some "2021-03-04T12:00:01Z"⟩], []⟩ :=
  (c9_deactivate_twice
      ⟨[⟨"ak", "p", "q", "a", "2021-03-01T00:00:00Z", Option.none⟩], []⟩
      ⟨1614859201000, 0⟩ ⟨1614859201000, 0⟩ "ak").1
    ⟨[⟨"ak", "p", "q", "a", "2021-03-01T00:00:00Z",
        some "2021-03-04T12:00:01Z"⟩], []⟩
    (by decide)

/-- A row the update matched carries the rendering of the update's clock
reading as its revokedAt. -/
theorem deactivateKey_mem {db db1 : DB} {t : GoTime} {apikey : String} {r : Key}
    (h1 : DeactivateKey db t apikey = .ok db1) (hr : r ∈ db1.keys)
    (hak : r.apiKey = apikey) : r.revokedAt = some t.format := by
  unfold DeactivateKey at h1
  injection h1 with h1
  rw [← h1] at hr
  simp only [List.mem_map] at hr
  obtain ⟨r0, _, hr0⟩ := hr
  by_cases hb : r0.apiKey == apikey
  · rw [if_pos hb] at hr0
    rw [← hr0]
  · rw [if_neg hb] at hr0
    rw [← hr0] at hak
    rw [hak] at hb
    exact absurd (by simp) hb

/-- The hour and minute fields can be read back off a canonical rendering, so
equal renderings force equal hour and minute fields (the positions of these
components are fixed: every other component of the layout is rendered at a
fixed width). -/
theorem formatISO8601_hour_minute_eq {f g : Fields}
    (hf1 : f.hour ≤ 99) (hf2 : f.minute ≤ 99) (hg1 : g.hour ≤ 99)
    (hg2 : g.minute ≤ 99) (h : formatISO8601 f = formatISO8601 g) :
    f.hour = g.hour ∧ f.minute = g.minute := by
  have hd : renderChars 'T' ['Z'] f = renderChars 'T' ['Z'] g :=
    congrArg String.data h
  simp only [renderChars, pad4c, pad2c, List.cons_append, List.nil_append,
    List.append_assoc, List.cons.injEq] at hd
  obtain ⟨-, -, -, -, -, -, -, -, -, -, -, hh1, hh2, -, hm1, hm2, -, -, -, -⟩ := hd
  constructor
  · have e1 := digitChar_inj _ (by omega) _ (by omega) hh1
    have e2 := digitChar_inj _ (by omega) _ (by omega) hh2
    omega
  · have e1 := digitChar_inj _ (by omega) _ (by omega) hm1
    have e2 := digitChar_inj _ (by omega) _ (by omega) hm2
    omega

/-- C10: `DeactivateKey` formats the clock reading without the `.UTC()`
conversion the insert paths perform, so the stored revokedAt is the
local-time rendering of now; for every clock in a non-UTC zone (offsets of
real zones are under a day) at an instant after the first epoch day, that
rendering differs from the UTC rendering of the same instant. -/
theorem c10_deactivate_local_time (db : DB) (t : GoTime) (apikey : String)
    (hoff : t.offsetMin ≠ 0) (hlo : -1440 < t.offsetMin) (hhi : t.offsetMin < 1440)
    (hinst : 86400000 ≤ t.utcMillis) :
    (∀ db1 r, DeactivateKey db t apikey = .ok db1 → r ∈ db1.keys →
      r.apiKey = apikey → r.revokedAt = some t.format) ∧
    t.format ≠ (GoTime.utc t).format := by
  constructor
  · intro db1 r h1 hr hak
    exact deactivateKey_mem h1 hr hak
  · intro heq
    unfold GoTime.format GoTime.utc GoTime.wallMillis at heq
    simp only [Int.zero_mul, Int.add_zero] at heq
    have hw1 : ((t.utcMillis + t.offsetMin * 60000).toNat : Int) =
        t.utcMillis + t.offsetMin * 60000 := Int.toNat_of_nonneg (by nlinarith)
    have hw2 : ((t.utcMillis).toNat : Int) = t.utcMillis :=
      Int.toNat_of_nonneg (by omega)
    have hfm := formatISO8601_hour_minute_eq (f := fieldsOfMillis
        (t.utcMillis + t.offsetMin * 60000).toNat)
      (g := fieldsOfMillis t.utcMillis.toNat)
      (by rw [fieldsOfMillis_hour]; omega)
      (by rw [fieldsOfMillis_minute]; omega)
      (by rw [fieldsOfMillis_hour]; omega)
      (by rw [fieldsOfMillis_minute]; omega) heq
    rw [fieldsOfMillis_hour, fieldsOfMillis_hour, fieldsOfMillis_minute,
      fieldsOfMillis_minute] at hfm
    obtain ⟨hh, hm⟩ := hfm
    omega

/-- C10, witness: a clock one hour east of UTC at 2021-03-04T12:00:01Z. -/
theorem c10_deactivate_local_time_witness :
    GoTime.format ⟨1614859201000, 60⟩ ≠
      GoTime.format (GoTime.utc ⟨1614859201000, 60⟩) :=
  (c10_deactivate_local_time ⟨[], []⟩ ⟨1614859201000, 60⟩ "ak" (by decide)
    (by decide) (by decide) (by decide)).2

theorem find?_append_none {p : α → Bool} {l1 : List α} (l2 : List α)
    (h : l1.find? p = none) : (l1 ++ l2).find? p = l2.find? p := by
  rw [List.find?_append, h]
  rfl

/-- `now().UTC().Format(ISO8601)` renders the civil fields of the clock's UTC
instant. -/
theorem format_utc (t : GoTime) : (GoTime.utc t).format =
    formatISO8601 (fieldsOfMillis t.utcMillis.toNat) := by
  simp [GoTime.format, GoTime.utc, GoTime.wallMillis]

theorem integer2bool_bool2integer (b : Bool) :
    integer2bool (bool2integer b) = b := by
  cases b <;> rfl

/-- C2, counterexample.  The claim says the createdAt returned by a get after
an insert is rendered in the canonical write format
`2006-01-02T15:04:05.999Z`; but `GetKey`/`GetTransaction` perform no
normalization, so the caller sees the embedded engine's read-back
representation (space separator and `+00:00`). -/
theorem c2_counterexample :
    InsertKey ⟨[], []⟩ ⟨1614859201000, 0⟩
        ⟨"ak", "priv", "pub", "addr", "", Option.none⟩ =
      .ok ⟨[⟨"ak", "priv", "pub", "addr", "2021-03-04T12:00:01Z",
        Option.none⟩], []⟩ ∧
    GetKey ⟨[⟨"ak", "priv", "pub", "addr", "2021-03-04T12:00:01Z",
        Option.none⟩], []⟩ "ak" =
      .ok ⟨"ak", "priv", "pub", "addr", "2021-03-04 12:00:01+00:00",
        Option.none⟩ ∧
    ("2021-03-04 12:00:01+00:00" : String) ≠ "2021-03-04T12:00:01Z" := by
  decide

/-- C2, amended.  After a successful `InsertKey` (resp.
`InsertTransaction`), the get-by-id returns a value equal to the inserted one
in every field except createdAt; the returned createdAt is the embedded
engine's read-back rendering (`2006-01-02 15:04:05.999+00:00` shape) of the
inserted instant, not the canonical write format, because the single-row get
paths perform no normalization. -/
theorem c2_insert_get_roundtrip (db : DB) (now : GoTime) (k : Key)
    (tx : Transaction) (hn1 : 0 ≤ now.utcMillis)
    (hn2 : now.utcMillis < 240784704000000)
    (hk : ∀ r ∈ db.keys, r.apiKey ≠ k.apiKey)
    (ht : ∀ r ∈ db.txs, r.id ≠ tx.id) :
    (∀ db1, InsertKey db now k = .ok db1 →
      GetKey db1 k.apiKey = .ok
        { apiKey := k.apiKey, privateKey := k.privateKey,
          publicKey := k.publicKey, address := k.address,
          createdAt := formatSqlite (fieldsOfMillis now.utcMillis.toNat),
          revokedAt := Option.none }) ∧
    (∀ db1, InsertTransaction db now tx = .ok db1 →
      GetTransaction db1 tx.id = .ok
        { id := tx.id, apiKey := tx.apiKey, dataBytes := tx.dataBytes,
          filename := tx.filename, secret := tx.secret, isHash := tx.isHash,
          createdAt := formatSqlite (fieldsOfMillis now.utcMillis.toNat) }) := by
  have hwf : (fieldsOfMillis now.utcMillis.toNat).wf :=
    fieldsOfMillis_wf (by omega)
  constructor
  · intro db1 h
    unfold InsertKey at h
    rw [if_neg (by
      simp only [List.any_eq_true, not_exists, not_and, Bool.not_eq_true]
      intro r hr
      simp only [beq_eq_false_iff_ne, ne_eq]
      exact hk r hr)] at h
    injection h with h
    subst h
    unfold GetKey
    rw [find?_append_none _ (List.find?_eq_none.mpr (by
      intro r hr
      simp only [beq_eq_false_iff_ne, ne_eq, Bool.not_eq_true]
      exact hk r hr))]
    rw [List.find?_cons_of_pos _ (by simp)]
    unfold readKey
    simp only [Option.map_none', Except.ok.injEq]
    rw [format_utc, engineReadBack_format hwf]
  · intro db1 h
    unfold InsertTransaction at h
    rw [if_neg (by
      simp only [List.any_eq_true, not_exists, not_and, Bool.not_eq_true]
      intro r hr
      simp only [beq_eq_false_iff_ne, ne_eq]
      exact ht r hr)] at h
    injection h with h
    subst h
    unfold GetTransaction
    rw [find?_append_none _ (List.find?_eq_none.mpr (by
      intro r hr
      simp only [beq_eq_false_iff_ne, ne_eq, Bool.not_eq_true]
      exact ht r hr))]
    rw [List.find?_cons_of_pos _ (by simp)]
    unfold readTransaction
    simp only [Except.ok.injEq]
    rw [format_utc, engineReadBack_format hwf, integer2bool_bool2integer]

/-- C2, witness: the round trip at a concrete key, transaction and clock. -/
theorem c2_insert_get_roundtrip_witness :
    GetKey ⟨[⟨"ak", "priv", "pub", "addr", "2021-03-04T12:00:01Z",
        Option.none⟩], []⟩ "ak" =
      .ok ⟨"ak", "priv", "pub", "addr",
        formatSqlite (fieldsOfMillis (1614859201000 : Int).toNat),
        Option.none⟩ :=
  (c2_insert_get_roundtrip ⟨[], []⟩ ⟨1614859201000, 0⟩
      ⟨"ak", "priv", "pub", "addr", "", Option.none⟩
      ⟨"t1", "ak", 100, "", "", false, ""⟩ (by decide) (by decide)
      (by intro r hr; cases hr) (by intro r hr; cases hr)).1
    ⟨[⟨"ak", "priv", "pub", "addr", "2021-03-04T12:00:01Z", Option.none⟩], []⟩
    (by decide)

/-- C1, counterexample.  The claim says a stored createdAt that parses under
the read layout is re-rendered into the canonical write format
`2006-01-02T15:04:05.999Z`; but the loops re-render through `ISO8601DBOutput`
= `2006-01-02 15:04:05.999Z` — space separator, not `T`. -/
theorem c1_counterexample :
    (GetAllKeys ⟨[⟨"ak", "p", "q", "a", "2021-03-04 12:00:01+00:00",
        Option.none⟩], []⟩).map (fun k => k.createdAt) =
      ["2021-03-04 12:00:01Z"] ∧
    ("2021-03-04 12:00:01Z" : String) ≠ "2021-03-04T12:00:01Z" ∧
    parseISO8601Sqlite "2021-03-04 12:00:01+00:00" =
      some ⟨2021, 3, 4, 12, 0, 1, 0⟩ := by
  decide

/-- C1, amended.  For every row whose stored createdAt parses under the
embedded engine's read layout `2006-01-02 15:04:05.999+00:00`, the bulk read
operations `GetAllKeys`, `GetAllKeysUsage` and `GetAllTransactions` return
that row with its createdAt re-rendered through `ISO8601DBOutput` =
`2006-01-02 15:04:05.999Z` (space separator, trailing `Z`) — an
engine-independent rendering, but not the canonical write format. -/
theorem c1_normalization (db : DB) (now : GoTime) (hoursBack : Nat) :
    (∀ r ∈ db.keys, r.revokedAt = Option.none → ∀ f,
      parseISO8601Sqlite r.createdAt = some f →
      (⟨r.apiKey, r.privateKey, r.publicKey, r.address, formatDBOutput f,
        Option.none⟩ : Key) ∈ GetAllKeys db) ∧
    (∀ r ∈ db.keys, r.revokedAt = Option.none → ∀ f,
      parseISO8601Sqlite r.createdAt = some f →
      (⟨r.apiKey, r.publicKey, r.privateKey, r.address, formatDBOutput f,
        Option.none,
        ((db.txs.filter (fun t => t.apiKey == r.apiKey)).map
          (fun t => t.dataBytes)).sum⟩ : KeyUsage) ∈ GetAllKeysUsage db) ∧
    (∀ r ∈ db.txs, ∀ f, parseISO8601Sqlite r.createdAt = some f →
      (⟨r.id, r.apiKey, r.dataBytes, r.filename, r.secret,
        integer2bool r.isHash, formatDBOutput f⟩ : Transaction) ∈
        GetAllTransactions db now true hoursBack) := by
  refine ⟨?_, ?_, ?_⟩
  · intro r hr hrev f hp
    unfold GetAllKeys
    rw [List.mem_map]
    refine ⟨r, ?_, ?_⟩
    · rw [(orderAscBy_perm _ _).mem_iff, List.mem_filter]
      exact ⟨hr, by rw [hrev]; rfl⟩
    · unfold listedKey readKey
      simp only [hrev, Option.map_none']
      rw [engineReadBack_of_sqlite hp, normalizeCreatedAt_of_sqlite hp]
  · intro r hr hrev f hp
    unfold GetAllKeysUsage
    rw [List.mem_map]
    refine ⟨r, ?_, ?_⟩
    · rw [(orderAscBy_perm _ _).mem_iff, List.mem_filter]
      exact ⟨hr, by rw [hrev]; rfl⟩
    · unfold keyUsageRow
      simp only [hrev, Option.map_none']
      rw [engineReadBack_of_sqlite hp, normalizeCreatedAt_of_sqlite hp]
  · intro r hr f hp
    unfold GetAllTransactions
    simp only [if_pos rfl]
    rw [List.mem_map]
    refine ⟨r, ?_, ?_⟩
    · rw [(orderDescBy_perm _ _).mem_iff]
      exact hr
    · unfold listedTransaction readTransaction
      simp only
      rw [engineReadBack_of_sqlite hp, normalizeCreatedAt_of_sqlite hp]

/-- C1, witness: the stored sqlite-layout row of the counterexample appears
in the `GetAllKeys` output with its createdAt re-rendered through
`ISO8601DBOutput`. -/
theorem c1_normalization_witness :
    (⟨"ak", "p", "q", "a", formatDBOutput ⟨2021, 3, 4, 12, 0, 1, 0⟩,
      Option.none⟩ : Key) ∈
      GetAllKeys ⟨[⟨"ak", "p", "q", "a", "2021-03-04 12:00:01+00:00",
        Option.none⟩], []⟩ :=
  (c1_normalization ⟨[⟨"ak", "p", "q", "a", "2021-03-04 12:00:01+00:00",
        Option.none⟩], []⟩ ⟨0, 0⟩ 0).1
    ⟨"ak", "p", "q", "a", "2021-03-04 12:00:01+00:00", Option.none⟩
    (by decide) rfl ⟨2021, 3, 4, 12, 0, 1, 0⟩ (by decide)

/-- The engine read-back leaves a string alone when it is not a canonical
rendering. -/
theorem engineReadBack_of_none {s : String} (h : parseISO8601 s = none) :
    engineReadBack s = s := by
  unfold engineReadBack
  rw [h]

/-- If some element of the list fails, and failures can only carry the
timestamp-parse error, the whole early-return loop fails with it. -/
theorem mapExcept_error_of_mem {f : α → Except DBErr β} {l : List α} {a : α}
    (ha : a ∈ l) (hf : f a = .error DBErr.timeParseError)
    (hall : ∀ x e, f x = .error e → e = DBErr.timeParseError) :
    mapExcept f l = .error DBErr.timeParseError := by
  induction l with
  | nil => cases ha
  | cons b l ih =>
    unfold mapExcept
    cases hb : f b with
    | error e => rw [hall b e hb]
    | ok v =>
      rcases List.mem_cons.mp ha with h | h
      · rw [h] at hf
        rw [hb] at hf
        cases hf
      · rw [ih h]

/-- C7: a stored timestamp that fails to parse on read is non-fatal for the
bulk list operations — the offending row is still returned, its createdAt in
its original stored form — while in `GetTransactionInfo` a parse failure of
any bucket timestamp fails the entire call with the timestamp-parse error,
yielding no results. -/
theorem c7_parse_failure_handling (db : DB) (now : GoTime) (hoursBack : Nat)
    (fromT toT : GoTime) (g : Granularity) :
    (∀ r ∈ db.keys, r.revokedAt = Option.none →
      parseISO8601 r.createdAt = none → parseISO8601Sqlite r.createdAt = none →
      (⟨r.apiKey, r.privateKey, r.publicKey, r.address, r.createdAt,
        Option.none⟩ : Key) ∈ GetAllKeys db) ∧
    (∀ r ∈ db.keys, r.revokedAt = Option.none →
      parseISO8601 r.createdAt = none → parseISO8601Sqlite r.createdAt = none →
      (⟨r.apiKey, r.publicKey, r.privateKey, r.address, r.createdAt,
        Option.none,
        ((db.txs.filter (fun t => t.apiKey == r.apiKey)).map
          (fun t => t.dataBytes)).sum⟩ : KeyUsage) ∈ GetAllKeysUsage db) ∧
    (∀ r ∈ db.txs,
      parseISO8601 r.createdAt = none → parseISO8601Sqlite r.createdAt = none →
      (⟨r.id, r.apiKey, r.dataBytes, r.filename, r.secret,
        integer2bool r.isHash, r.createdAt⟩ : Transaction) ∈
        GetAllTransactions db now true hoursBack) ∧
    (∀ st ∈ bucketStamps db fromT toT
        (granularitySecondsToPositionAndFormat g).1,
      parseLayout (granularitySecondsToPositionAndFormat g).2 st = none →
      GetTransactionInfo db fromT toT g = .error DBErr.timeParseError) := by
  refine ⟨?_, ?_, ?_, ?_⟩
  · intro r hr hrev hpc hps
    unfold GetAllKeys
    rw [List.mem_map]
    refine ⟨r, ?_, ?_⟩
    · rw [(orderAscBy_perm _ _).mem_iff, List.mem_filter]
      exact ⟨hr, by rw [hrev]; rfl⟩
    · unfold listedKey readKey
      simp only [hrev, Option.map_none']
      rw [engineReadBack_of_none hpc, normalizeCreatedAt_of_none hps]
  · intro r hr hrev hpc hps
    unfold GetAllKeysUsage
    rw [List.mem_map]
    refine ⟨r, ?_, ?_⟩
    · rw [(orderAscBy_perm _ _).mem_iff, List.mem_filter]
      exact ⟨hr, by rw [hrev]; rfl⟩
    · unfold keyUsageRow
      simp only [hrev, Option.map_none']
      rw [engineReadBack_of_none hpc, normalizeCreatedAt_of_none hps]
  · intro r hr hpc hps
    unfold GetAllTransactions
    simp only [if_pos rfl]
    rw [List.mem_map]
    refine ⟨r, ?_, ?_⟩
    · rw [(orderDescBy_perm _ _).mem_iff]
      exact hr
    · unfold listedTransaction readTransaction
      simp only
      rw [engineReadBack_of_none hpc, normalizeCreatedAt_of_none hps]
  · intro st hst hparse
    unfold GetTransactionInfo
    dsimp only
    apply mapExcept_error_of_mem hst
    · rw [hparse]
    · intro x e hx
      cases hp : parseLayout (granularitySecondsToPositionAndFormat g).2 x with
      | none =>
        rw [hp] at hx
        injection hx with hx
        exact hx.symm
      | some fx =>
        rw [hp] at hx
        cases hx

/-- C7, witness: a transaction with an unparseable stored timestamp is still
listed (original form preserved), and fails the aggregation path. -/
theorem c7_parse_failure_handling_witness :
    (⟨"t1", "ak", 5, "", "", integer2bool 0, "2021-03-04X"⟩ : Transaction) ∈
      GetAllTransactions ⟨[], [⟨"t1", "ak", 5, "", "", 0, "2021-03-04X"⟩]⟩
        ⟨0, 0⟩ true 24 ∧
    GetTransactionInfo ⟨[], [⟨"t1", "ak", 5, "", "", 0, "2021-03-04X"⟩]⟩
        ⟨1614816000000, 0⟩ ⟨1614902400000, 0⟩ Granularity.none =
      .error DBErr.timeParseError :=
  ⟨(c7_parse_failure_handling ⟨[], [⟨"t1", "ak", 5, "", "", 0, "2021-03-04X"⟩]⟩
        ⟨0, 0⟩ 24 ⟨0, 0⟩ ⟨0, 0⟩ Granularity.none).2.2.1
      ⟨"t1", "ak", 5, "", "", 0, "2021-03-04X"⟩ (by decide) (by decide)
      (by decide),
    (c7_parse_failure_handling ⟨[], [⟨"t1", "ak", 5, "", "", 0, "2021-03-04X"⟩]⟩
        ⟨0, 0⟩ 24 ⟨1614816000000, 0⟩ ⟨1614902400000, 0⟩ Granularity.none).2.2.2
      "2021-03-04X" (by decide) (by decide)⟩

/-- C5: `GetAllKeysUsage` returns one entry per key whose revokedAt is null —
never an entry for a revoked key — carrying the key's fields plus the sum of
dataBytes over all transactions referencing that key (0 for a key with no
transactions, never null or absent), with the entries in ascending order of
the keys' stored createdAt.  (`api_key` is the primary key of `keys`, so the
rows of the grouped query are assumed pairwise distinct in apiKey.) -/
theorem c5_keys_usage (db : DB)
    (huniq : db.keys.Pairwise (fun a b => a.apiKey ≠ b.apiKey)) :
    (∀ u ∈ GetAllKeysUsage db, ∃ r ∈ db.keys, r.revokedAt = Option.none ∧
      u.apiKey = r.apiKey ∧ u.revokedAt = Option.none ∧
      u.dataBytes = ((db.txs.filter (fun t => t.apiKey == r.apiKey)).map
        (fun t => t.dataBytes)).sum) ∧
    (∀ u ∈ GetAllKeysUsage db,
      (∀ t ∈ db.txs, t.apiKey ≠ u.apiKey) → u.dataBytes = 0) ∧
    (∀ r ∈ db.keys, r.revokedAt = Option.none →
      keyUsageRow db r ∈ GetAllKeysUsage db) ∧
    (GetAllKeysUsage db).length =
      (db.keys.filter (fun r => r.revokedAt == Option.none)).length ∧
    (GetAllKeysUsage db).map (fun u => u.apiKey) =
      (orderAscBy (fun r : Key => r.createdAt)
        (db.keys.filter (fun r => r.revokedAt == Option.none))).map
        (fun r => r.apiKey) ∧
    (orderAscBy (fun r : Key => r.createdAt)
        (db.keys.filter (fun r => r.revokedAt == Option.none))).Pairwise
      (fun a b => strLe a.createdAt b.createdAt = true) := by
  refine ⟨?_, ?_, ?_, ?_, ?_, orderAscBy_sorted _ _⟩
  · intro u hu
    unfold GetAllKeysUsage at hu
    rw [List.mem_map] at hu
    obtain ⟨r, hr, hru⟩ := hu
    rw [(orderAscBy_perm _ _).mem_iff, List.mem_filter] at hr
    have hrev : r.revokedAt = Option.none := by
      have := hr.2
      rwa [beq_iff_eq] at this
    refine ⟨r, hr.1, hrev, ?_, ?_, ?_⟩
    · rw [← hru]; rfl
    · rw [← hru]
      unfold keyUsageRow
      simp only [hrev, Option.map_none']
    · rw [← hru]; rfl
  · intro u hu hno
    unfold GetAllKeysUsage at hu
    rw [List.mem_map] at hu
    obtain ⟨r, hr, hru⟩ := hu
    have hak : u.apiKey = r.apiKey := by rw [← hru]; rfl
    have hdb : u.dataBytes = ((db.txs.filter (fun t => t.apiKey == r.apiKey)).map
        (fun t => t.dataBytes)).sum := by rw [← hru]; rfl
    rw [hdb, List.filter_eq_nil_iff.mpr (by
      intro t ht
      simp only [beq_iff_eq]
      rw [← hak]
      exact hno t ht)]
    rfl
  · intro r hr hrev
    unfold GetAllKeysUsage
    rw [List.mem_map]
    refine ⟨r, ?_, rfl⟩
    rw [(orderAscBy_perm _ _).mem_iff, List.mem_filter]
    exact ⟨hr, by rw [hrev]; rfl⟩
  · unfold GetAllKeysUsage
    rw [List.length_map]
    exact (orderAscBy_perm _ _).length_eq
  · unfold GetAllKeysUsage
    rw [List.map_map]
    rfl

/-- C5, witness: one active key with no transactions (sum 0) and one revoked
key (absent), at a concrete database. -/
theorem c5_keys_usage_witness :
    keyUsageRow ⟨[⟨"ak", "p", "q", "a", "2021-03-04 12:00:01+00:00",
        Option.none⟩,
      ⟨"bk", "p2", "q2", "a2", "2021-03-01 08:00:00+00:00",
        some "2021-03-02T00:00:00Z"⟩], []⟩
      ⟨"ak", "p", "q", "a", "2021-03-04 12:00:01+00:00", Option.none⟩ ∈
      GetAllKeysUsage ⟨[⟨"ak", "p", "q", "a", "2021-03-04 12:00:01+00:00",
          Option.none⟩,
        ⟨"bk", "p2", "q2", "a2", "2021-03-01 08:00:00+00:00",
          some "2021-03-02T00:00:00Z"⟩], []⟩ :=
  (c5_keys_usage ⟨[⟨"ak", "p", "q", "a", "2021-03-04 12:00:01+00:00",
        Option.none⟩,
      ⟨"bk", "p2", "q2", "a2", "2021-03-01 08:00:00+00:00",
        some "2021-03-02T00:00:00Z"⟩], []⟩
      (by decide)).2.2.1
    ⟨"ak", "p", "q", "a", "2021-03-04 12:00:01+00:00", Option.none⟩
    (by decide) rfl

/-- C6, counterexample.  The claim says `GetAllTransactions(false, 24)`
returns exactly the transactions created at or after now − 24h; but the query
compares the stored strings, and the `.999` layout drops trailing zeros, so a
transaction created 23h59m59.5s ago — stored `…12:00:00.5Z` — sorts *below*
the cutoff `…12:00:00Z` (`.` < `Z` bytewise) and is wrongly excluded even
though its creation instant is inside the window. -/
theorem c6_counterexample :
    InsertTransaction ⟨[], []⟩ ⟨1614859200500, 0⟩
        ⟨"t1", "ak", 7, "", "", false, ""⟩ =
      .ok ⟨[], [⟨"t1", "ak", 7, "", "", 0, "2021-03-04T12:00:00.5Z"⟩]⟩ ∧
    hoursBackCutoff ⟨1614945600000, 0⟩ 24 = "2021-03-04T12:00:00Z" ∧
    GetAllTransactions ⟨[], [⟨"t1", "ak", 7, "", "", 0,
        "2021-03-04T12:00:00.5Z"⟩]⟩ ⟨1614945600000, 0⟩ false 24 = [] ∧
    ((1614945600000 : Int) - 1614859200500 < 24 * 3600000) := by
  decide

/-- C6, amended.  `GetAllTransactions(all, hoursBack)` returns every
transaction when `all` is true, and when `all` is false exactly the
transactions whose *stored* createdAt string is (bytewise) `>=` the canonical
rendering of now − hoursBack hours — which coincides with "created at or
after" for whole-second timestamps, as in the claimed 25h/23h example, but
not for fractional-second ones; in both cases the rows are ordered by stored
createdAt descending. -/
theorem c6_transactions_window (db : DB) (now : GoTime) (hb : Nat) :
    List.Perm (GetAllTransactions db now true hb)
      (db.txs.map listedTransaction) ∧
    List.Perm (GetAllTransactions db now false hb)
      ((db.txs.filter (fun r =>
        strLe (hoursBackCutoff now hb) r.createdAt)).map listedTransaction) ∧
    (∀ r ∈ db.txs, strLe (hoursBackCutoff now hb) r.createdAt = true →
      listedTransaction r ∈ GetAllTransactions db now false hb) ∧
    (∀ x ∈ GetAllTransactions db now false hb, ∃ r ∈ db.txs,
      strLe (hoursBackCutoff now hb) r.createdAt = true ∧
      x = listedTransaction r) ∧
    (orderDescBy (fun r : TxRow => r.createdAt) db.txs).Pairwise
      (fun a b => strLe b.createdAt a.createdAt = true) ∧
    (orderDescBy (fun r : TxRow => r.createdAt)
        (db.txs.filter (fun r =>
          strLe (hoursBackCutoff now hb) r.createdAt))).Pairwise
      (fun a b => strLe b.createdAt a.createdAt = true) ∧
    GetAllTransactions
        ⟨[], [⟨"t25", "ak", 1, "", "", 0, "2021-03-04T11:00:00Z"⟩,
          ⟨"t23", "ak", 2, "", "", 0, "2021-03-04T13:00:00Z"⟩]⟩
        ⟨1614945600000, 0⟩ false 24 =
      [listedTransaction ⟨"t23", "ak", 2, "", "", 0, "2021-03-04T13:00:00Z"⟩] := by
  refine ⟨?_, ?_, ?_, ?_, orderDescBy_sorted _ _, orderDescBy_sorted _ _,
    by decide⟩
  · unfold GetAllTransactions
    simp only [if_pos rfl]
    exact (orderDescBy_perm _ _).map _
  · unfold GetAllTransactions
    simp only [Bool.false_eq_true, if_neg, if_false]
    exact (orderDescBy_perm _ _).map _
  · intro r hr hcut
    unfold GetAllTransactions
    simp only [Bool.false_eq_true, if_neg, if_false]
    rw [List.mem_map]
    refine ⟨r, ?_, rfl⟩
    rw [(orderDescBy_perm _ _).mem_iff, List.mem_filter]
    exact ⟨hr, hcut⟩
  · intro x hx
    unfold GetAllTransactions at hx
    simp only [Bool.false_eq_true, if_neg, if_false] at hx
    rw [List.mem_map] at hx
    obtain ⟨r, hr, hrx⟩ := hx
    rw [(orderDescBy_perm _ _).mem_iff, List.mem_filter] at hr
    exact ⟨r, hr.1, hr.2, hrx.symm⟩

/-- C6, witness: the 23-hours-ago transaction is in the non-`all` output. -/
theorem c6_transactions_window_witness :
    listedTransaction ⟨"t23", "ak", 2, "", "", 0, "2021-03-04T13:00:00Z"⟩ ∈
      GetAllTransactions
        ⟨[], [⟨"t25", "ak", 1, "", "", 0, "2021-03-04T11:00:00Z"⟩,
          ⟨"t23", "ak", 2, "", "", 0, "2021-03-04T13:00:00Z"⟩]⟩
        ⟨1614945600000, 0⟩ false 24 :=
  (c6_transactions_window
      ⟨[], [⟨"t25", "ak", 1, "", "", 0, "2021-03-04T11:00:00Z"⟩,
        ⟨"t23", "ak", 2, "", "", 0, "2021-03-04T13:00:00Z"⟩]⟩
      ⟨1614945600000, 0⟩ 24).2.2.1
    ⟨"t23", "ak", 2, "", "", 0, "2021-03-04T13:00:00Z"⟩ (by decide) (by decide)

theorem sum_map_one (l : List α) : (l.map (fun _ => (1 : Nat))).sum = l.length := by
  induction l with
  | nil => rfl
  | cons a t ih =>
    simp only [List.map_cons, List.sum_cons, ih, List.length_cons]
    omega

/-- Summing the per-group aggregates over a duplicate-free cover of group
keys recovers the aggregate over all the rows. -/
theorem sum_groups {M : Type} [AddCommMonoid M] (key : α → String) (fv : α → M) :
    ∀ ks : List String, ks.Nodup → ∀ l : List α, (∀ a ∈ l, key a ∈ ks) →
      (ks.map (fun b => ((l.filter (fun a => key a == b)).map fv).sum)).sum =
        (l.map fv).sum := by
  intro ks
  induction ks with
  | nil =>
    intro _ l hcov
    cases l with
    | nil => rfl
    | cons a t => exact absurd (hcov a (by simp)) (by simp)
  | cons b ks ih =>
    intro hnd l hcov
    have hhead : ∀ b' ∈ ks, b ≠ b' := (List.pairwise_cons.mp hnd).1
    have htail : ks.Nodup := (List.pairwise_cons.mp hnd).2
    simp only [List.map_cons, List.sum_cons]
    have hp := l.filter_append_perm (fun a => key a == b)
    have hsplit : (l.map fv).sum =
        ((l.filter (fun a => key a == b)).map fv).sum +
          ((l.filter (fun a => !(key a == b))).map fv).sum := by
      rw [← (hp.map fv).sum_eq, List.map_append, List.sum_append]
    rw [hsplit]
    congr 1
    have hmapcong :
        ks.map (fun b' => ((l.filter (fun a => key a == b')).map fv).sum) =
          ks.map (fun b' =>
            (((l.filter (fun a => !(key a == b))).filter
              (fun a => key a == b')).map fv).sum) := by
      apply List.map_congr_left
      intro b' hb'
      rw [List.filter_filter]
      congr 1
      congr 1
      apply List.filter_congr
      intro a _
      by_cases h : (key a == b') = true
      · have he : key a = b' := by rwa [beq_iff_eq] at h
        have hne : (key a == b) = false := by
          rw [beq_eq_false_iff_ne, he]
          exact fun hc => hhead b' hb' hc.symm
        rw [h, hne]
        rfl
      · rw [Bool.not_eq_true] at h
        rw [h, Bool.false_and]
    rw [hmapcong]
    apply ih htail
    intro a ha
    rw [List.mem_filter] at ha
    have hmem := hcov a ha.1
    rcases List.mem_cons.mp hmem with he | he
    · rw [Bool.not_eq_true', beq_eq_false_iff_ne] at ha
      exact absurd he ha.2
    · exact he

/-- A successful early-return loop relates inputs and outputs pointwise. -/
theorem mapExcept_ok_forall₂ {f : α → Except DBErr β} :
    ∀ {l : List α} {bs : List β}, mapExcept f l = .ok bs →
      List.Forall₂ (fun a b => f a = .ok b) l bs := by
  intro l
  induction l with
  | nil =>
    intro bs h
    unfold mapExcept at h
    injection h with h
    rw [← h]
    exact List.Forall₂.nil
  | cons a t ih =>
    intro bs h
    unfold mapExcept at h
    cases ha : f a with
    | error e =>
      rw [ha] at h
      cases h
    | ok v =>
      rw [ha] at h
      cases ht : mapExcept f t with
      | error e =>
        rw [ht] at h
        cases h
      | ok vs =>
        rw [ht] at h
        injection h with h
        rw [← h]
        exact List.Forall₂.cons ha (ih ht)

theorem map_eq_of_forall₂ {R : α → β → Prop} {g : β → γ} {h : α → γ}
    (hgh : ∀ a b, R a b → g b = h a) :
    ∀ {l : List α} {bs : List β}, List.Forall₂ R l bs → bs.map g = l.map h := by
  intro l bs hf
  induction hf with
  | nil => rfl
  | cons hab _ ih => simp only [List.map_cons, ih, hgh _ _ hab]

/-- C3, counterexample.  The claim says the aggregation interval is half-open
`[from, to)` with a transaction created exactly at `from` included; but the
query compares with `created_at > $2`, so a transaction stored exactly at the
rendered `from` bound is excluded and the call returns no buckets. -/
theorem c3_counterexample :
    InsertTransaction ⟨[], []⟩ ⟨1614816000000, 0⟩
        ⟨"t1", "ak", 9, "", "", false, ""⟩ =
      .ok ⟨[], [⟨"t1", "ak", 9, "", "", 0, "2021-03-04T00:00:00Z"⟩]⟩ ∧
    GoTime.format ⟨1614816000000, 0⟩ = "2021-03-04T00:00:00Z" ∧
    GetTransactionInfo ⟨[], [⟨"t1", "ak", 9, "", "", 0, "2021-03-04T00:00:00Z"⟩]⟩
        ⟨1614816000000, 0⟩ ⟨1614902400000, 0⟩ Granularity.minute =
      .ok [] := by
  decide

/-- C3, amended.  `GetTransactionInfo(from, to, granularity)` aggregates
exactly the transactions whose stored createdAt is strictly between the
rendered bounds — the interval is open at *both* ends, so a transaction
created exactly at `from` is excluded, as is one exactly at `to` — grouping
them into truncation buckets: on success every in-range transaction is
counted in exactly one bucket (counts sum to the number of in-range rows,
dataBytes sum to their total), buckets are ordered descending, and the
claim's example (two transactions in the same minute, granularity minute)
yields one bucket with count 2 and the summed dataBytes. -/
theorem c3_bucketing (db : DB) (fromT toT : GoTime) (g : Granularity) :
    (∀ infos, GetTransactionInfo db fromT toT g = .ok infos →
      (infos.map (fun i => i.count)).sum = (txsInRange db fromT toT).length ∧
      (infos.map (fun i => i.dataBytes)).sum =
        ((txsInRange db fromT toT).map (fun r => r.dataBytes)).sum) ∧
    (∀ r ∈ db.txs, (r ∈ txsInRange db fromT toT ↔
      strLt fromT.format r.createdAt = true ∧
        strLt r.createdAt toT.format = true)) ∧
    (bucketStamps db fromT toT
        (granularitySecondsToPositionAndFormat g).1).Pairwise
      (fun a b => strLe b a = true) ∧
    GetTransactionInfo
        ⟨[], [⟨"t1", "ak", 100, "", "", 0, "2021-03-04T12:00:01Z"⟩,
          ⟨"t2", "ak", 200, "", "", 0, "2021-03-04T12:00:45Z"⟩]⟩
        ⟨1614816000000, 0⟩ ⟨1614902400000, 0⟩ Granularity.minute =
      .ok [⟨⟨2021, 3, 4, 12, 0, 0, 0⟩, 2, 300⟩] := by
  refine ⟨?_, ?_, ?_, by decide⟩
  · intro infos h
    unfold GetTransactionInfo at h
    dsimp only at h
    have hf2 := mapExcept_ok_forall₂ h
    have hnodup : (bucketStamps db fromT toT
        (granularitySecondsToPositionAndFormat g).1).Nodup :=
      ((orderDescBy_perm _ _).nodup_iff).mpr (List.nodup_dedup _)
    have hperm : List.Perm (bucketStamps db fromT toT
          (granularitySecondsToPositionAndFormat g).1)
        (((txsInRange db fromT toT).map (fun r =>
          sqliteSubstr (granularitySecondsToPositionAndFormat g).1
            r.createdAt)).dedup) :=
      orderDescBy_perm _ _
    have hcov : ∀ r ∈ txsInRange db fromT toT,
        sqliteSubstr (granularitySecondsToPositionAndFormat g).1 r.createdAt ∈
          bucketStamps db fromT toT
            (granularitySecondsToPositionAndFormat g).1 := by
      intro r hr
      rw [hperm.mem_iff, List.mem_dedup]
      exact List.mem_map_of_mem _ hr
    constructor
    · have hmap : infos.map (fun i => i.count) =
          (bucketStamps db fromT toT
            (granularitySecondsToPositionAndFormat g).1).map
            (fun st => ((txsInRange db fromT toT).filter (fun r =>
              sqliteSubstr (granularitySecondsToPositionAndFormat g).1
                r.createdAt == st)).length) := by
        apply map_eq_of_forall₂ ?_ hf2
        intro st i hsti
        cases hp : parseLayout (granularitySecondsToPositionAndFormat g).2 st with
        | none =>
          rw [hp] at hsti
          cases hsti
        | some ff =>
          rw [hp] at hsti
          injection hsti with e
          rw [← e]
      rw [hmap]
      have hones : (bucketStamps db fromT toT
            (granularitySecondsToPositionAndFormat g).1).map
            (fun st => ((txsInRange db fromT toT).filter (fun r =>
              sqliteSubstr (granularitySecondsToPositionAndFormat g).1
                r.createdAt == st)).length) =
          (bucketStamps db fromT toT
            (granularitySecondsToPositionAndFormat g).1).map
            (fun st => (((txsInRange db fromT toT).filter (fun r =>
              sqliteSubstr (granularitySecondsToPositionAndFormat g).1
                r.createdAt == st)).map (fun _ => (1 : Nat))).sum) := by
        apply List.map_congr_left
        intro st _
        exact (sum_map_one _).symm
      rw [hones]
      have hsg := sum_groups (fun r : TxRow => sqliteSubstr
          (granularitySecondsToPositionAndFormat g).1 r.createdAt)
        (fun _ => (1 : Nat)) _ hnodup _ hcov
      rw [sum_map_one] at hsg
      exact hsg
    · have hmap : infos.map (fun i => i.dataBytes) =
          (bucketStamps db fromT toT
            (granularitySecondsToPositionAndFormat g).1).map
            (fun st => (((txsInRange db fromT toT).filter (fun r =>
              sqliteSubstr (granularitySecondsToPositionAndFormat g).1
                r.createdAt == st)).map (fun r => r.dataBytes)).sum) := by
        apply map_eq_of_forall₂ ?_ hf2
        intro st i hsti
        cases hp : parseLayout (granularitySecondsToPositionAndFormat g).2 st with
        | none =>
          rw [hp] at hsti
          cases hsti
        | some ff =>
          rw [hp] at hsti
          injection hsti with e
          rw [← e]
      rw [hmap]
      exact sum_groups (fun r : TxRow => sqliteSubstr
          (granularitySecondsToPositionAndFormat g).1 r.createdAt)
        (fun r : TxRow => r.dataBytes) _ hnodup _ hcov
  · intro r hr
    unfold txsInRange
    rw [List.mem_filter]
    constructor
    · intro h
      have := h.2
      rw [Bool.and_eq_true] at this
      exact this
    · intro h
      refine ⟨hr, ?_⟩
      rw [Bool.and_eq_true]
      exact h
  · exact orderDescBy_sorted (fun s => s) _

/-- C3, witness: the counts/sums identity at the concrete two-transaction
example database. -/
theorem c3_bucketing_witness :
    (([⟨⟨2021, 3, 4, 12, 0, 0, 0⟩, 2, 300⟩] :
        List TransactionInfo).map (fun i => i.count)).sum =
      (txsInRange ⟨[], [⟨"t1", "ak", 100, "", "", 0, "2021-03-04T12:00:01Z"⟩,
          ⟨"t2", "ak", 200, "", "", 0, "2021-03-04T12:00:45Z"⟩]⟩
        ⟨1614816000000, 0⟩ ⟨1614902400000, 0⟩).length :=
  ((c3_bucketing ⟨[], [⟨"t1", "ak", 100, "", "", 0, "2021-03-04T12:00:01Z"⟩,
        ⟨"t2", "ak", 200, "", "", 0, "2021-03-04T12:00:45Z"⟩]⟩
      ⟨1614816000000, 0⟩ ⟨1614902400000, 0⟩ Granularity.minute).1
    [⟨⟨2021, 3, 4, 12, 0, 0, 0⟩, 2, 300⟩] (by decide)).1

end TaalClient
